import Mathlib

/-!
# Verification of the CaptLive barrage-recording core

Shallow embedding of the repository's message-processing pipeline:

* `app/core/barrage_manager.py` — `BarrageManager` (session registry,
  transcript formatting, room-id extraction);
* `app/douyin_fetcher/streamcap_adapter.py` — `StreamCapDouyinFetcher`
  (frame handling, per-method dispatch, commerce parsing, deduplication,
  readable-content extraction).

Conventions of the embedding:

* Byte strings are `List Nat` (each element is one byte value).
* Protobuf parsing is an external library; a message payload is carried
  both as its raw bytes (`Msg.raw`, read by the code paths that inspect
  bytes directly) and as the library's decode result (`Msg.payload`, an
  abstract view consumed by the per-method decoders).  A `Payload.malformed`
  value stands for a byte string on which the library's `parse` raises.
* Python callbacks are modelled by `CB` (absent / registered / raising);
  `on_error` is a boolean flag (its emissions are collected as outputs).
* `time.time()` instants are rationals; `hashlib.md5` is modelled as an
  injective encoding (only equality of digests is ever observed).
* `time.localtime`-based `%H:%M:%S` rendering is modelled in UTC; no claim
  depends on the timezone offset.
-/

namespace CaptLive

/-! ## Generic list-of-characters helpers (Python `str` operations) -/

/-- `startsWith p s`: `p` is a leading segment of `s`. -/
def startsWith : List Char → List Char → Bool
  | [], _ => true
  | _ :: _, [] => false
  | a :: as, b :: bs => a = b && startsWith as bs

/-- Python's substring test `p in s` (contiguous occurrence). -/
def isSub (p : List Char) : List Char → Bool
  | [] => p.isEmpty
  | b :: bs => startsWith p (b :: bs) || isSub p bs

theorem startsWith_self_append (p t : List Char) : startsWith p (p ++ t) = true := by
  induction p with
  | nil => simp [startsWith]
  | cons a as ih => simp [startsWith, ih]

theorem startsWith_append_of_le (p f t : List Char) (hlen : p.length ≤ f.length) :
    startsWith p (f ++ t) = startsWith p f := by
  induction p generalizing f with
  | nil => simp [startsWith]
  | cons a as ih =>
    cases f with
    | nil => simp at hlen
    | cons b bs =>
      simp only [List.cons_append, startsWith]
      by_cases hab : a = b
      · rw [show (decide (a = b)) = true by simp [hab], Bool.true_and, Bool.true_and]
        exact ih bs (by simpa using hlen)
      · simp [hab]

/-! ## BarrageManager: room-id extraction (`_extract_live_id`) -/

/-- Python `str.split(sep)` on a character list: always returns a non-empty
list of (possibly empty) separator-free segments. -/
def pySplit (sep : Char) : List Char → List (List Char)
  | [] => [[]]
  | c :: cs =>
    let r := pySplit sep cs
    if c = sep then [] :: r
    else (c :: r.headD []) :: r.tail

/-- `BarrageManager._extract_live_id`: a URL containing `live.douyin.com`
yields `split("/")[-1].split("?")[0]` provided a `/` is present; otherwise a
URL containing `v.douyin.com` (short link) yields nothing; anything else
yields nothing. -/
def extractLiveId (url : String) : Option String :=
  if isSub "live.douyin.com".toList url.toList then
    if url.toList.contains '/' then
      some (String.mk ((pySplit '?' ((pySplit '/' url.toList).getLastD [])).headD []))
    else none
  else if isSub "v.douyin.com".toList url.toList then
    none
  else none

/-- Spec-side description of the direct-link extraction result: the
substring after the final `/`, truncated before the first `?`. -/
def specRoomId (url : String) : String :=
  String.mk (((url.toList.reverse.takeWhile (· ≠ '/')).reverse).takeWhile (· ≠ '?'))

theorem pySplit_cons_sep {sep c : Char} (h : c = sep) (cs : List Char) :
    pySplit sep (c :: cs) = [] :: pySplit sep cs := by
  simp [pySplit, h]

theorem pySplit_cons_ne {sep c : Char} (h : ¬c = sep) (cs : List Char) :
    pySplit sep (c :: cs) =
      (c :: (pySplit sep cs).headD []) :: (pySplit sep cs).tail := by
  simp [pySplit, h]

theorem pySplit_ne_nil (sep : Char) (cs : List Char) : pySplit sep cs ≠ [] := by
  cases cs with
  | nil => simp [pySplit]
  | cons c cs =>
    by_cases h : c = sep
    · rw [pySplit_cons_sep h]; simp
    · rw [pySplit_cons_ne h]; simp

theorem getLastD_congr_default {α : Type} {xs : List α} (h : xs ≠ []) (d₁ d₂ : α) :
    xs.getLastD d₁ = xs.getLastD d₂ := by
  cases xs with
  | nil => exact absurd rfl h
  | cons x xs => rw [List.getLastD_cons, List.getLastD_cons]

theorem getLastD_tail_of_ne {α : Type} {l : List α} (h : l.tail ≠ []) (d : α) :
    l.tail.getLastD d = l.getLastD d := by
  cases l with
  | nil => simp at h
  | cons x xs =>
    cases xs with
    | nil => simp at h
    | cons y ys => simp [List.getLastD_cons]

theorem pySplit_headD (sep : Char) (cs : List Char) :
    (pySplit sep cs).headD [] = cs.takeWhile (· ≠ sep) := by
  induction cs with
  | nil => simp [pySplit]
  | cons c cs ih =>
    by_cases h : c = sep
    · rw [pySplit_cons_sep h]
      simp [List.takeWhile_cons, h]
    · rw [pySplit_cons_ne h, List.headD_cons]
      have hstep : List.takeWhile (· ≠ sep) (c :: cs) =
          c :: List.takeWhile (· ≠ sep) cs := by
        simp [List.takeWhile_cons, h]
      rw [hstep]
      exact congrArg (c :: ·) ih

theorem pySplit_tail_eq_nil_iff (sep : Char) (cs : List Char) :
    (pySplit sep cs).tail = [] ↔ sep ∉ cs := by
  induction cs with
  | nil => simp [pySplit]
  | cons c cs ih =>
    by_cases h : c = sep
    · rw [pySplit_cons_sep h, List.tail_cons]
      constructor
      · intro hnil; exact absurd hnil (pySplit_ne_nil sep cs)
      · intro hmem; exact absurd (h ▸ List.mem_cons_self c cs) hmem
    · rw [pySplit_cons_ne h, List.tail_cons, ih]
      constructor
      · intro hns hmem
        rcases List.mem_cons.mp hmem with h1 | h2
        · exact h h1.symm
        · exact hns h2
      · intro hno hc
        exact hno (List.mem_cons_of_mem c hc)

theorem takeWhile_append_of_forall {sep : Char} {l : List Char}
    (h : ∀ a ∈ l, a ≠ sep) (l' : List Char) :
    (l ++ l').takeWhile (· ≠ sep) = l ++ l'.takeWhile (· ≠ sep) := by
  induction l with
  | nil => simp
  | cons a as ih =>
    have ha : a ≠ sep := h a (by simp)
    simp only [List.cons_append, List.takeWhile_cons]
    rw [show (decide (a ≠ sep)) = true by simp [ha]]
    simp only [if_true]
    rw [ih (fun x hx => h x (by simp [hx]))]

theorem takeWhile_append_of_mem {sep : Char} {l : List Char}
    (h : sep ∈ l) (l' : List Char) :
    (l ++ l').takeWhile (· ≠ sep) = l.takeWhile (· ≠ sep) := by
  induction l with
  | nil => simp at h
  | cons a as ih =>
    by_cases ha : a = sep
    · subst ha
      simp [List.takeWhile_cons]
    · have hmem : sep ∈ as := by
        rcases List.mem_cons.mp h with h1 | h2
        · exact absurd h1.symm ha
        · exact h2
      simp only [List.cons_append, List.takeWhile_cons]
      rw [show (decide (a ≠ sep)) = true by simp [ha]]
      simp only [if_true]
      rw [ih hmem]

theorem pySplit_getLastD (sep : Char) (cs : List Char) :
    (pySplit sep cs).getLastD [] = (cs.reverse.takeWhile (· ≠ sep)).reverse := by
  induction cs with
  | nil => simp [pySplit]
  | cons c cs ih =>
    by_cases h : c = sep
    · rw [pySplit_cons_sep h, List.getLastD_cons, ih, List.reverse_cons]
      by_cases hmem : sep ∈ cs.reverse
      · rw [takeWhile_append_of_mem hmem]
      · have hall : ∀ a ∈ cs.reverse, a ≠ sep := fun a ha hc => hmem (hc ▸ ha)
        rw [takeWhile_append_of_forall hall]
        have h1 : List.takeWhile (· ≠ sep) [c] = [] := by
          simp [List.takeWhile_cons, h]
        have h2 : cs.reverse.takeWhile (· ≠ sep) = cs.reverse :=
          List.takeWhile_eq_self_iff.mpr (by
            intro a ha
            simpa using hall a ha)
        rw [h1, h2, List.append_nil]
    · rw [pySplit_cons_ne h, List.getLastD_cons]
      by_cases hmem : sep ∈ cs
      · have htail : (pySplit sep cs).tail ≠ [] := by
          intro hnil
          exact ((pySplit_tail_eq_nil_iff sep cs).mp hnil) hmem
        rw [getLastD_congr_default htail _ [], getLastD_tail_of_ne htail, ih,
          List.reverse_cons]
        have hmemrev : sep ∈ cs.reverse := by simpa using hmem
        rw [takeWhile_append_of_mem hmemrev]
      · -- no separator in cs: the whole of c :: cs is the only segment
        have htail : (pySplit sep cs).tail = [] :=
          (pySplit_tail_eq_nil_iff sep cs).mpr hmem
        rw [htail]
        have hcs : cs.takeWhile (· ≠ sep) = cs :=
          List.takeWhile_eq_self_iff.mpr (by
            intro a ha
            simp only [ne_eq, decide_eq_true_eq]
            intro hc
            exact hmem (hc ▸ ha))
        have hall : ∀ a ∈ cs.reverse, a ≠ sep := by
          intro a ha hc
          subst hc
          exact hmem (by simpa using ha)
        rw [List.getLastD_nil, pySplit_headD, hcs, List.reverse_cons,
          takeWhile_append_of_forall hall]
        have h1 : List.takeWhile (· ≠ sep) [c] = [c] := by
          simp [List.takeWhile_cons, h]
        rw [h1]
        simp

/-- C7: room-id extraction for supported direct-link URLs and shortened-link
URLs.  The direct-link half holds; refuted as a whole: a shortened link
(host `v.douyin.com`) whose query mentions `live.douyin.com` is routed to the
direct-link branch and extraction returns a value, so extraction does not
return nothing "regardless of the URL's content". -/
theorem c7_counterexample :
    isSub "v.douyin.com".toList "https://v.douyin.com/x?from=live.douyin.com".toList
      = true ∧
    extractLiveId "https://v.douyin.com/x?from=live.douyin.com" = some "x" := by
  decide

/-- C7 (amended): a URL containing `live.douyin.com` and a `/` yields the
substring after the final `/` truncated before the first `?`; a URL
containing `v.douyin.com` but not `live.douyin.com` yields nothing.  The
`live.douyin.com` test takes precedence over the shortened-link test. -/
theorem c7_room_id_extraction :
    (∀ url : String, isSub "live.douyin.com".toList url.toList = true →
      url.toList.contains '/' = true →
      extractLiveId url = some (specRoomId url)) ∧
    (∀ url : String, isSub "v.douyin.com".toList url.toList = true →
      isSub "live.douyin.com".toList url.toList = false →
      extractLiveId url = none) := by
  constructor
  · intro url h1 h2
    simp only [extractLiveId, h1, h2, if_true]
    rw [pySplit_getLastD, pySplit_headD]
    rfl
  · intro url h1 h2
    unfold extractLiveId
    have hneg : ¬(isSub "live.douyin.com".toList url.toList = true) := by
      rw [h2]; simp
    rw [if_neg hneg, if_pos h1]

theorem c7_room_id_extraction_witness :
    extractLiveId "https://live.douyin.com/123456?enter=1" = some "123456" ∧
    extractLiveId "https://v.douyin.com/iF3abc" = none := by
  constructor
  · have h := c7_room_id_extraction.1 "https://live.douyin.com/123456?enter=1"
      (by decide) (by decide)
    rw [h]
    decide
  · exact c7_room_id_extraction.2 "https://v.douyin.com/iF3abc" (by decide) (by decide)

/-! ## BarrageManager: session registry (`start_barrage_recording`,
`stop_barrage_recording`, `is_recording`, `get_barrage_file`)

The registry state is the pair of dictionaries `active_fetchers`
(represented by its key set; the fetcher handles carry no information the
claims need) and `barrage_files` (an association list).  File creation
(`_create_barrage_file`) performs filesystem I/O; its outcome is passed in
as an `Option` path.  `fetcher.stop()` is defined outside this repository
(`liveMan.DouyinLiveWebFetcher`); whether it raises is passed in as a
boolean. -/

structure ManagerState where
  active : List String
  files : List (String × String)
  deriving DecidableEq

def emptyManager : ManagerState := ⟨[], []⟩

/-- `dict` deletion: remove the key entirely. -/
def removeKey (id : String) (l : List (String × String)) : List (String × String) :=
  l.filter (fun kv => kv.1 ≠ id)

/-- `BarrageManager.start_barrage_recording`.  Returns `False` without
touching the registry when the platform is unsupported, the room id cannot
be extracted, or the barrage file cannot be created; otherwise registers the
fetcher and the file path and returns `True`. -/
def startBarrageRecording (s : ManagerState) (recordingId liveUrl platform : String)
    (fileResult : Option String) : Bool × ManagerState :=
  if platform ≠ "douyin" then (false, s)
  else
    match extractLiveId liveUrl with
    | none => (false, s)
    | some liveId =>
      -- an empty extracted id is falsy in Python: `if not live_id: return False`
      if liveId = "" then (false, s)
      else
        match fileResult with
        | none => (false, s)
        | some path =>
          (true,
            { active := if s.active.contains recordingId then s.active
                        else recordingId :: s.active,
              files := (recordingId, path) :: removeKey recordingId s.files })

/-- `BarrageManager.stop_barrage_recording`.  If the id is registered, call
`stop()` on its fetcher — when that raises, the exception is caught by the
surrounding `try` and the function returns `False` with both deletions
skipped; otherwise both map entries are deleted and it returns `True`.  An
unregistered id returns `False`. -/
def stopBarrageRecording (s : ManagerState) (recordingId : String)
    (stopRaises : Bool) : Bool × ManagerState :=
  if s.active.contains recordingId then
    if stopRaises then (false, s)
    else
      (true,
        { active := s.active.filter (fun x => x ≠ recordingId),
          files := removeKey recordingId s.files })
  else (false, s)

/-- `BarrageManager.is_recording`. -/
def isRecording (s : ManagerState) (recordingId : String) : Bool :=
  s.active.contains recordingId

/-- `BarrageManager.get_barrage_file`. -/
def getBarrageFile (s : ManagerState) (recordingId : String) : Option String :=
  (s.files.find? (fun kv => kv.1 = recordingId)).map (·.2)

theorem contains_filter_ne_self (id : String) (l : List String) :
    (l.filter (fun x => x ≠ id)).contains id = false := by
  rw [Bool.eq_false_iff]
  intro hcon
  have hmem : id ∈ l.filter (fun x => x ≠ id) := by
    rcases List.contains_iff_exists_mem_beq.mp hcon with ⟨a, ha, hbeq⟩
    have hea : id = a := by simpa using hbeq
    exact hea ▸ ha
  have hp := List.of_mem_filter hmem
  simp at hp

theorem find?_removeKey (id : String) (l : List (String × String)) :
    (removeKey id l).find? (fun kv => kv.1 = id) = none := by
  rw [List.find?_eq_none]
  intro kv hmem
  simp only [removeKey] at hmem
  have hp := List.of_mem_filter hmem
  simp at hp ⊢
  exact hp

theorem contains_cons_self (id : String) (l : List String) :
    (id :: l).contains id = true := by
  simp [List.contains_cons]

/-- C9: a successful `start_barrage_recording` followed immediately by
`stop_barrage_recording` (with the fetcher's `stop()` returning normally)
leaves `is_recording` false and removes the barrage-file mapping; and
`stop_barrage_recording` returns `False` whenever the id is not active. -/
theorem c9_start_then_stop :
    (∀ (s : ManagerState) (id url platform : String) (fr : Option String),
      (startBarrageRecording s id url platform fr).1 = true →
      isRecording
        (stopBarrageRecording (startBarrageRecording s id url platform fr).2 id false).2
        id = false ∧
      getBarrageFile
        (stopBarrageRecording (startBarrageRecording s id url platform fr).2 id false).2
        id = none) ∧
    (∀ (s : ManagerState) (id : String) (b : Bool),
      isRecording s id = false → (stopBarrageRecording s id b).1 = false) := by
  constructor
  · intro s id url platform fr hstart
    by_cases hp : platform ≠ "douyin"
    · simp [startBarrageRecording, hp] at hstart
    · rcases hx : extractLiveId url with _ | liveId
      · simp [startBarrageRecording, hp, hx] at hstart
      · by_cases hempty : liveId = ""
        · simp [startBarrageRecording, hp, hx, hempty] at hstart
        · cases fr with
          | none => simp [startBarrageRecording, hp, hx, hempty] at hstart
          | some path =>
            have hstate : (startBarrageRecording s id url platform (some path)).2 =
                { active := if s.active.contains id then s.active else id :: s.active,
                  files := (id, path) :: removeKey id s.files } := by
              simp [startBarrageRecording, hp, hx, hempty]
            rw [hstate]
            have hact : (if s.active.contains id then s.active
                else id :: s.active).contains id = true := by
              by_cases hc : s.active.contains id = true
              · rw [if_pos hc]; exact hc
              · rw [if_neg hc]
                exact contains_cons_self id s.active
            have hstop :
                stopBarrageRecording
                  ⟨if s.active.contains id then s.active else id :: s.active,
                   (id, path) :: removeKey id s.files⟩ id false =
                (true,
                  { active := (if s.active.contains id then s.active
                      else id :: s.active).filter (fun x => x ≠ id),
                    files := removeKey id ((id, path) :: removeKey id s.files) }) := by
              simp only [stopBarrageRecording]
              rw [if_pos hact]
              simp
            rw [hstop]
            constructor
            · simp only [isRecording]
              exact contains_filter_ne_self id _
            · simp only [getBarrageFile]
              rw [find?_removeKey]
              rfl
  · intro s id b hrec
    simp only [stopBarrageRecording, isRecording] at *
    rw [hrec]
    simp

theorem c9_start_then_stop_witness :
    (startBarrageRecording emptyManager "rec1" "https://live.douyin.com/123456"
        "douyin" (some "downloads/barrage.txt")).1 = true ∧
    isRecording
      (stopBarrageRecording
        (startBarrageRecording emptyManager "rec1" "https://live.douyin.com/123456"
          "douyin" (some "downloads/barrage.txt")).2 "rec1" false).2 "rec1" = false ∧
    getBarrageFile
      (stopBarrageRecording
        (startBarrageRecording emptyManager "rec1" "https://live.douyin.com/123456"
          "douyin" (some "downloads/barrage.txt")).2 "rec1" false).2 "rec1" = none ∧
    (stopBarrageRecording emptyManager "other" true).1 = false := by
  refine ⟨by decide, ?_, ?_, ?_⟩
  · exact (c9_start_then_stop.1 emptyManager "rec1" "https://live.douyin.com/123456"
      "douyin" (some "downloads/barrage.txt") (by decide)).1
  · exact (c9_start_then_stop.1 emptyManager "rec1" "https://live.douyin.com/123456"
      "douyin" (some "downloads/barrage.txt") (by decide)).2
  · exact c9_start_then_stop.2 emptyManager "other" true (by decide)

/-- C10: when the fetcher's `stop()` raises inside `stop_barrage_recording`,
the exception is caught, `False` is returned, and — because both `del`
statements sit after the `stop()` call — the session stays registered and
the barrage-file mapping survives. -/
theorem c10_stop_raises_leaves_session (s : ManagerState) (id : String)
    (h : isRecording s id = true) :
    (stopBarrageRecording s id true).1 = false ∧
    (stopBarrageRecording s id true).2 = s ∧
    isRecording (stopBarrageRecording s id true).2 id = true ∧
    getBarrageFile (stopBarrageRecording s id true).2 id = getBarrageFile s id := by
  simp only [stopBarrageRecording, isRecording] at *
  rw [if_pos h]
  exact ⟨rfl, rfl, h, rfl⟩

theorem c10_stop_raises_leaves_session_witness :
    isRecording ⟨["rec1"], [("rec1", "f.txt")]⟩ "rec1" = true ∧
    (stopBarrageRecording ⟨["rec1"], [("rec1", "f.txt")]⟩ "rec1" true).1 = false ∧
    isRecording (stopBarrageRecording ⟨["rec1"], [("rec1", "f.txt")]⟩ "rec1" true).2
      "rec1" = true := by
  refine ⟨by decide, ?_, ?_⟩
  · exact (c10_stop_raises_leaves_session ⟨["rec1"], [("rec1", "f.txt")]⟩ "rec1"
      (by decide)).1
  · exact (c10_stop_raises_leaves_session ⟨["rec1"], [("rec1", "f.txt")]⟩ "rec1"
      (by decide)).2.2.1

/-! ## BarrageManager: transcript-line formatting (`_handle_*_message`)

Each handler formats the decoded event and passes the text to
`_write_to_file`, which prepends a wall-clock `[HH:MM:SS] ` stamp; the
stamp is wall-clock I/O and is not modelled — the values below are the
`message` arguments of `_write_to_file`. -/

def chatLine (userName content : String) : String :=
  "[弹幕] " ++ userName ++ ": " ++ content

def giftLine (userName giftName : String) (comboCount : Nat) : String :=
  "[礼物] " ++ userName ++ " 赠送 " ++ giftName ++ " x" ++ toString comboCount

/-- `_handle_member_message`: the decoder's default gender value 0 maps to
`女`, the value 1 to `男`, anything else to `未知`. -/
def genderText (g : Nat) : String :=
  if g = 1 then "男" else if g = 0 then "女" else "未知"

def memberLine (userName : String) (g : Nat) : String :=
  "[进场] [" ++ genderText g ++ "]" ++ userName ++ " 进入了直播间"

def likeLine (userName : String) (count : Nat) : String :=
  "[点赞] " ++ userName ++ " 点了" ++ toString count ++ "个赞"

def socialLine (userName userId : String) : String :=
  "[关注] [" ++ userId ++ "]" ++ userName ++ " 关注了主播"

def emojiChatLine (userName emojiId defaultContent : String) : String :=
  "[表情] " ++ userName ++ ": " ++
    (if defaultContent ≠ "" then defaultContent else "表情ID:" ++ emojiId)

def roomUserSeqLine (total totalPvForAnchor : Nat) : String :=
  "[统计] 当前观看人数: " ++ toString total ++ ", 累计观看人数: " ++
    toString totalPvForAnchor

/-- `_handle_room_stats_message` writes only when `display_long` is truthy. -/
def roomStatsLines (displayLong : String) : List String :=
  if displayLong ≠ "" then ["[房间统计] " ++ displayLong] else []

def controlLine (status : Nat) : String :=
  if status = 3 then "[控制] 直播间已结束"
  else "[控制] 直播间状态: " ++ toString status

def errorLine (msg : String) : String := "[系统] " ++ msg

/-- C2: the claim says an absent gender field (decoder default 0) is
transcribed as unknown (未知).  Refuted: `_handle_member_message` maps the
default value 0 to `女`. -/
theorem c2_counterexample :
    memberLine "Alice" 0 = "[进场] [女]Alice 进入了直播间" ∧
    genderText 0 ≠ "未知" := by
  decide

/-- C2 (amended): every MemberJoin event is formatted as
`[进场] [{gender}]{user} 进入了直播间` with gender drawn from
{男, 女, 未知}; but the decoder-default value 0 (absent field) is rendered
`女`, value 1 is `男`, and only values ≥ 2 are `未知`. -/
theorem c2_member_gender_formatting :
    (∀ (u : String) (g : Nat),
      memberLine u g = "[进场] [" ++ genderText g ++ "]" ++ u ++ " 进入了直播间") ∧
    genderText 1 = "男" ∧ genderText 0 = "女" ∧
    (∀ g : Nat, g ≠ 0 → g ≠ 1 → genderText g = "未知") ∧
    (∀ g : Nat, genderText g = "男" ∨ genderText g = "女" ∨ genderText g = "未知") := by
  refine ⟨fun u g => rfl, rfl, rfl, ?_, ?_⟩
  · intro g h0 h1
    simp [genderText, h0, h1]
  · intro g
    by_cases h1 : g = 1
    · left; simp [genderText, h1]
    · by_cases h0 : g = 0
      · right; left; simp [genderText, h0, h1]
      · right; right; simp [genderText, h0, h1]

theorem c2_member_gender_formatting_witness :
    memberLine "Bob" 2 = "[进场] [" ++ genderText 2 ++ "]" ++ "Bob" ++ " 进入了直播间" ∧
    genderText 2 = "未知" :=
  ⟨c2_member_gender_formatting.1 "Bob" 2,
   c2_member_gender_formatting.2.2.2.1 2 (by decide) (by decide)⟩

/-! ## StreamCapDouyinFetcher: data model

`Msg` is one multiplexed unit of a `Response`: its `method` tag, its wire
bytes (`raw`, read by the code paths that hash, hex-dump or length-check the
payload) and the protobuf library's view of those bytes (`payload`, consumed
by the per-method `parse` calls).  `Payload.unparsed` is a byte string that
is none of the typed schemas (unknown methods); `Payload.malformed e` is a
byte string on which the library's `parse` raises an exception rendered as
`e` (protobuf parse errors do not mention the Webcast method name). -/

inductive Payload where
  | chat (nickName content : String)
  | gift (nickName giftName : String) (comboCount : Nat)
  | member (nickName : String) (gender : Nat)
  | like (nickName : String) (count : Nat)
  | social (nickName userId : String)
  | emojiChat (nickName emojiId defaultContent : String)
  | roomUserSeq (total totalPvForAnchor : Nat)
  | roomStats (displayLong : String)
  | control (status : Nat)
  | liveShopping (msgType promotionId createTime : Nat)
  | productChange (updateToast : String)
  | unparsed
  | malformed (e : String)
  deriving DecidableEq

structure Msg where
  method : String
  raw : List Nat
  payload : Payload
  deriving DecidableEq

/-- A Python callback slot: absent (`None`), registered and returning
normally, or registered and raising (with the exception's text). -/
inductive CB where
  | absent
  | ok
  | raises (e : String)
  deriving DecidableEq

def CB.registered : CB → Bool
  | .absent => false
  | _ => true

def CB.doesRaise : CB → Bool
  | .raises _ => true
  | _ => false

/-- The constructor keyword arguments of `StreamCapDouyinFetcher`; `on_error`
only ever receives strings and never raises in this development, so it is a
boolean registration flag. -/
structure Handlers where
  onChat : CB
  onGift : CB
  onMember : CB
  onLike : CB
  onSocial : CB
  onEmojiChat : CB
  onRoomUserSeq : CB
  onRoomStats : CB
  onControl : CB
  onError : Bool
  onRawMessage : CB
  deriving DecidableEq

/-- Everything the fetcher emits: invocations of the typed callbacks, of
`on_raw_message`, and of `on_error` (the diagnostic channel). -/
inductive Output where
  | rawMsg (tag : String) (raw : List Nat)
  | onChat (nickName content : String)
  | onGift (nickName giftName : String) (comboCount : Nat)
  | onMember (nickName : String) (gender : Nat)
  | onLike (nickName : String) (count : Nat)
  | onSocial (nickName userId : String)
  | onEmojiChat (nickName emojiId defaultContent : String)
  | onRoomUserSeq (total totalPvForAnchor : Nat)
  | onRoomStats (displayLong : String)
  | onControl (status : Nat)
  | err (line : String)
  deriving DecidableEq

/-! ### Per-method protobuf decoding

One `Except` per `XxxMessage().parse(payload)` call: the matching typed view
succeeds; a `malformed` byte string raises; a byte string of a different
shape raises a parse error as well. -/

def parseChat : Payload → Except String (String × String)
  | .chat n c => .ok (n, c)
  | .malformed e => .error e
  | _ => .error "parse error"

def parseGift : Payload → Except String (String × String × Nat)
  | .gift n g k => .ok (n, g, k)
  | .malformed e => .error e
  | _ => .error "parse error"

def parseMember : Payload → Except String (String × Nat)
  | .member n g => .ok (n, g)
  | .malformed e => .error e
  | _ => .error "parse error"

def parseLike : Payload → Except String (String × Nat)
  | .like n k => .ok (n, k)
  | .malformed e => .error e
  | _ => .error "parse error"

def parseSocial : Payload → Except String (String × String)
  | .social n i => .ok (n, i)
  | .malformed e => .error e
  | _ => .error "parse error"

def parseEmojiChat : Payload → Except String (String × String × String)
  | .emojiChat n i d => .ok (n, i, d)
  | .malformed e => .error e
  | _ => .error "parse error"

def parseRoomUserSeq : Payload → Except String (Nat × Nat)
  | .roomUserSeq t p => .ok (t, p)
  | .malformed e => .error e
  | _ => .error "parse error"

def parseRoomStats : Payload → Except String String
  | .roomStats d => .ok d
  | .malformed e => .error e
  | _ => .error "parse error"

def parseControl : Payload → Except String Nat
  | .control s => .ok s
  | .malformed e => .error e
  | _ => .error "parse error"

def parseLiveShopping : Payload → Except String (Nat × Nat × Nat)
  | .liveShopping mt pid ct => .ok (mt, pid, ct)
  | .malformed e => .error e
  | _ => .error "parse error"

def parseProductChange : Payload → Except String String
  | .productChange t => .ok t
  | .malformed e => .error e
  | _ => .error "parse error"

/-! ### Formatting helpers of `_parseLiveShoppingMsg` -/

def pad2 (n : Nat) : String :=
  if n < 10 then "0" ++ toString n else toString n

/-- `time.strftime("%H:%M:%S", time.localtime(secs))`, modelled in UTC. -/
def hmsUTC (secs : Nat) : String :=
  pad2 (secs / 3600 % 24) ++ ":" ++ pad2 (secs / 60 % 60) ++ ":" ++ pad2 (secs % 60)

/-- The `type_map` dictionary with its `"未知操作({msg_type})"` default. -/
def typeMap (msgType : Nat) : String :=
  if msgType = 1 then "商品展示"
  else if msgType = 2 then "下单操作"
  else if msgType = 3 then "加购物车"
  else if msgType = 4 then "关注商品"
  else if msgType = 5 then "取消关注"
  else "未知操作(" ++ toString msgType ++ ")"

/-! ### Readable-content extraction (`_extractReadableContent`) -/

/-- `bytes.decode('utf-8', errors='ignore')`: standard UTF-8 decoding with
the full validity constraints (continuation ranges, overlong rejection,
surrogate rejection, U+10FFFF cap); an invalid byte is skipped.  Skipping
one byte at a time emits the same scalar sequence as CPython's
maximal-subpart skipping, because a continuation byte on its own is itself
invalid and gets skipped by the next step. -/
def utf8Cont (b : Nat) : Bool := 128 ≤ b && b ≤ 191

def utf8Valid2 (b : Nat) : Bool := 194 ≤ b && b ≤ 223

def utf8ValidE (b b2 : Nat) : Bool :=
  if b = 224 then 160 ≤ b2 && b2 ≤ 191
  else if b = 237 then 128 ≤ b2 && b2 ≤ 159
  else utf8Cont b2

def utf8ValidF (b b2 : Nat) : Bool :=
  if b = 240 then 144 ≤ b2 && b2 ≤ 191
  else if b = 244 then 128 ≤ b2 && b2 ≤ 143
  else utf8Cont b2

def utf8Go : Nat → List Nat → List Nat
  | 0, _ => []
  | _, [] => []
  | fuel + 1, b :: rest =>
    if b ≤ 127 then b :: utf8Go fuel rest
    else if utf8Valid2 b then
      match rest with
      | b2 :: rest2 =>
        if utf8Cont b2 then
          ((b - 192) * 64 + (b2 - 128)) :: utf8Go fuel rest2
        else utf8Go fuel (b2 :: rest2)
      | [] => []
    else if 224 ≤ b && b ≤ 239 then
      match rest with
      | b2 :: b3 :: rest3 =>
        if utf8ValidE b b2 && utf8Cont b3 then
          ((b - 224) * 4096 + (b2 - 128) * 64 + (b3 - 128)) :: utf8Go fuel rest3
        else utf8Go fuel (b2 :: b3 :: rest3)
      | r => utf8Go fuel r
    else if 240 ≤ b && b ≤ 244 then
      match rest with
      | b2 :: b3 :: b4 :: rest4 =>
        if utf8ValidF b b2 && utf8Cont b3 && utf8Cont b4 then
          ((b - 240) * 262144 + (b2 - 128) * 4096 + (b3 - 128) * 64 + (b4 - 128)) ::
            utf8Go fuel rest4
        else utf8Go fuel (b2 :: b3 :: b4 :: rest4)
      | r => utf8Go fuel r
    else utf8Go fuel rest

/-- The decoder proper.  Each step consumes at least one byte, so a fuel
budget equal to the byte count always suffices; the fuel only makes the
recursion structural. -/
def utf8DecodeIgnore (l : List Nat) : List Nat := utf8Go l.length l

/-- Python `str.isprintable()` for one code point.  Exact on the Basic Latin
and Latin-1 ranges (controls, DEL, C1 controls, NBSP and soft hyphen are the
non-printables there); code points above U+00FF are treated as printable —
the finer Unicode categories (Zl/Zp/Cf/Co/Cn) are not distinguished, and no
input considered in this development decodes into those. -/
def pyPrintable (c : Nat) : Bool :=
  if c < 32 then false
  else if c ≤ 126 then true
  else if c ≤ 159 then false
  else if c = 160 then false
  else if c = 173 then false
  else true

/-- The filter `c.isprintable() and ord(c) >= 32` used by the extractor. -/
def readableCp (c : Nat) : Bool := pyPrintable c && decide (32 ≤ c)

/-- The hex-dump loop shared by `_extractReadableContent` (method 2) and
`_parseLiveEcomGeneralMsg`: each byte becomes its ASCII character when it is
in 32..126 and `'.'` otherwise.  (`payload.hex()` followed by
`int(hex_data[i:i+2], 16)` reconstructs exactly the original bytes, so the
hex round-trip is elided.) -/
def dottedText (raw : List Nat) : List Char :=
  raw.map (fun b => if 32 ≤ b && b ≤ 126 then Char.ofNat b else '.')

/-- The run-splitting loop of method 2: accumulate characters satisfying
`readableCp`, flush a run when a non-readable character appears or at the
end, keeping only runs of length > 3. -/
def runsGo : List Char → List Char → List String
  | [], cur => if 3 < cur.length then [String.mk cur.reverse] else []
  | c :: rest, cur =>
    if readableCp c.toNat then runsGo rest (c :: cur)
    else if 3 < cur.length then String.mk cur.reverse :: runsGo rest []
    else runsGo rest []

def printableRuns (cs : List Char) : List String := runsGo cs []

/-- Python `sep.join(parts)`. -/
def joinSep (sep : String) : List String → String
  | [] => ""
  | [x] => x
  | x :: y :: rest => x ++ sep ++ joinSep sep (y :: rest)

def takeStr (n : Nat) (s : String) : String := String.mk (s.toList.take n)

def cpString (l : List Nat) : String := String.mk (l.map Char.ofNat)

/-- The Chinese keyword list of method 3. -/
def cnKeywords : List String :=
  ["用户", "商品", "订单", "购买", "下单", "购物", "价格", "数量",
   "名称", "描述", "时间", "状态"]

/-- `_extractReadableContent`: method 1 keeps the printable characters of the
UTF-8 decode when more than 5 exist; method 2 joins the printable runs of the
dotted hex rendering with a space; method 3 reports which Chinese keywords
occur in the UTF-8 decode; otherwise `None`. -/
def extractReadableContent (raw : List Nat) : Option String :=
  let decoded := utf8DecodeIgnore raw
  let readable := decoded.filter readableCp
  if 5 < readable.length then
    some (takeStr 200 (cpString readable))
  else
    let parts := printableRuns (dottedText raw)
    if parts ≠ [] then
      some (takeStr 200 (joinSep " " parts))
    else
      let found := cnKeywords.filter (fun kw => isSub kw.toList (cpString decoded).toList)
      if found ≠ [] then
        some ("包含关键词: " ++ joinSep ", " found)
      else none

/-! ### Commerce parse methods -/

/-- `_parseProductChangeMsg`: unconditionally processes the decoded message
(`if True:`), calling `self.on_error` without a registration check when the
toast is non-empty — with `on_error = None` that call raises `TypeError`,
which the method's own `except` swallows (and whose re-report is itself
gated on `on_error`), so nothing is emitted. -/
def parseProductChangeMsg (h : Handlers) (p : Payload) : List Output :=
  match parseProductChange p with
  | .ok toast =>
    if toast ≠ "" then
      if h.onError then [.err ("[商品变更] " ++ toast)] else []
    else []
  | .error e => if h.onError then [.err ("[商品变更解析错误] " ++ e)] else []

/-- `_parseLiveShoppingMsg`: emits a `[直播购物]` line for every decoded
message (time-stamped when `create_time > 0`) and an additional `[🛒 下单]`
line when `msg_type == 2`.  As above, the unguarded `self.on_error` calls
mean nothing is emitted when `on_error` is absent. -/
def parseLiveShoppingMsg (h : Handlers) (p : Payload) : List Output :=
  match parseLiveShopping p with
  | .ok (mt, pid, ct) =>
    if h.onError then
      (if 0 < ct then
        [.err ("[直播购物] " ++ hmsUTC (ct / 1000) ++ " - " ++ typeMap mt ++
          ", 商品ID:" ++ toString pid)]
      else
        [.err ("[直播购物] " ++ typeMap mt ++ ", 商品ID:" ++ toString pid)]) ++
      (if mt = 2 then
        (if 0 < ct then
          [.err ("[🛒 下单] " ++ hmsUTC (ct / 1000) ++ " - 商品ID:" ++ toString pid)]
        else
          [.err ("[🛒 下单] 商品ID:" ++ toString pid)])
      else [])
    else []
  | .error e => if h.onError then [.err ("[直播购物解析错误] " ++ e)] else []

/-- The ASCII keyword list of `_parseLiveEcomGeneralMsg`. -/
def ecomKeywords : List String :=
  ["Product", "Order", "Buy", "Cart", "Item", "Goods", "Purchase", "Sale",
   "Shop", "Commerce", "Ecom", "Refresh", "Update"]

/-- `_parseLiveEcomGeneralMsg`: hex-dumps the payload, looks for ASCII
keywords in the dotted rendering, and reports the message as an order either
way; both emission sites are guarded by `if self.on_error`. -/
def parseLiveEcomGeneralMsg (h : Handlers) (raw : List Nat) : List Output :=
  let decodedText := String.mk (dottedText raw)
  let found := ecomKeywords.filter (fun kw => isSub kw.toList decodedText.toList)
  if found ≠ [] then
    if h.onError then
      [.err ("[下单] 用户下单商品 - 关键词: " ++ joinSep ", " found),
       .err ("[下单] 详细信息: " ++ takeStr 200 decodedText ++ "...")]
    else []
  else
    if h.onError then
      [.err ("[下单] 用户下单商品 - 数据长度: " ++ toString raw.length),
       .err ("[下单] 详细信息: " ++ takeStr 100 decodedText ++ "...")]
    else []

/-! ### Core parse methods

Each `_parseXxxMsg` decodes and passes the message to its callback inside
its own `try`; both a decode exception and an exception thrown by the
callback reach the same `except`, which reports on the diagnostic channel
with the method's fixed label. -/

def parseChatMsg (h : Handlers) (p : Payload) : List Output :=
  match parseChat p with
  | .ok (n, c) =>
    match h.onChat with
    | .absent => []
    | .ok => [.onChat n c]
    | .raises e => if h.onError then [.err ("[弹幕解析错误] " ++ e)] else []
  | .error e => if h.onError then [.err ("[弹幕解析错误] " ++ e)] else []

def parseGiftMsg (h : Handlers) (p : Payload) : List Output :=
  match parseGift p with
  | .ok (n, g, k) =>
    match h.onGift with
    | .absent => []
    | .ok => [.onGift n g k]
    | .raises e => if h.onError then [.err ("[礼物解析错误] " ++ e)] else []
  | .error e => if h.onError then [.err ("[礼物解析错误] " ++ e)] else []

def parseMemberMsg (h : Handlers) (p : Payload) : List Output :=
  match parseMember p with
  | .ok (n, g) =>
    match h.onMember with
    | .absent => []
    | .ok => [.onMember n g]
    | .raises e => if h.onError then [.err ("[观众进入解析错误] " ++ e)] else []
  | .error e => if h.onError then [.err ("[观众进入解析错误] " ++ e)] else []

def parseLikeMsg (h : Handlers) (p : Payload) : List Output :=
  match parseLike p with
  | .ok (n, k) =>
    match h.onLike with
    | .absent => []
    | .ok => [.onLike n k]
    | .raises e => if h.onError then [.err ("[点赞解析错误] " ++ e)] else []
  | .error e => if h.onError then [.err ("[点赞解析错误] " ++ e)] else []

def parseSocialMsg (h : Handlers) (p : Payload) : List Output :=
  match parseSocial p with
  | .ok (n, i) =>
    match h.onSocial with
    | .absent => []
    | .ok => [.onSocial n i]
    | .raises e => if h.onError then [.err ("[关注解析错误] " ++ e)] else []
  | .error e => if h.onError then [.err ("[关注解析错误] " ++ e)] else []

def parseEmojiChatMsg (h : Handlers) (p : Payload) : List Output :=
  match parseEmojiChat p with
  | .ok (n, i, d) =>
    match h.onEmojiChat with
    | .absent => []
    | .ok => [.onEmojiChat n i d]
    | .raises e => if h.onError then [.err ("[表情弹幕解析错误] " ++ e)] else []
  | .error e => if h.onError then [.err ("[表情弹幕解析错误] " ++ e)] else []

def parseRoomUserSeqMsg (h : Handlers) (p : Payload) : List Output :=
  match parseRoomUserSeq p with
  | .ok (t, pv) =>
    match h.onRoomUserSeq with
    | .absent => []
    | .ok => [.onRoomUserSeq t pv]
    | .raises e => if h.onError then [.err ("[房间用户序列解析错误] " ++ e)] else []
  | .error e => if h.onError then [.err ("[房间用户序列解析错误] " ++ e)] else []

def parseRoomStatsMsg (h : Handlers) (p : Payload) : List Output :=
  match parseRoomStats p with
  | .ok d =>
    match h.onRoomStats with
    | .absent => []
    | .ok => [.onRoomStats d]
    | .raises e => if h.onError then [.err ("[房间统计解析错误] " ++ e)] else []
  | .error e => if h.onError then [.err ("[房间统计解析错误] " ++ e)] else []

def parseControlMsg (h : Handlers) (p : Payload) : List Output :=
  match parseControl p with
  | .ok s =>
    match h.onControl with
    | .absent => []
    | .ok => [.onControl s]
    | .raises e => if h.onError then [.err ("[控制消息解析错误] " ++ e)] else []
  | .error e => if h.onError then [.err ("[控制消息解析错误] " ++ e)] else []

/-! ### The per-message dispatcher (`_wsOnMessage`, lines 87–179) -/

def uselessMessageTypes : List String :=
  ["WebcastRanklistHourEntranceMessage", "WebcastInRoomBannerMessage",
   "WebcastGiftSortMessage", "WebcastRoomStreamAdaptationMessage",
   "WebcastRoomRankMessage", "WebcastFansclubMessage", "WebcastRoomMessage",
   "WebcastRoomUserSeqMessage", "WebcastRoomStatsMessage",
   "WebcastControlMessage"]

def shoppingMessageTypes : List String :=
  ["WebcastProductChangeMessage", "WebcastLiveShoppingMessage",
   "WebcastLiveEcomGeneralMessage"]

def coreMessageTypes : List String :=
  ["WebcastChatMessage", "WebcastGiftMessage", "WebcastMemberMessage",
   "WebcastLikeMessage", "WebcastSocialMessage", "WebcastEmojiChatMessage"]

def shoppingKeywords : List String :=
  ["Shopping", "Ecom", "Product", "Order", "Buy", "Purchase", "Cart", "Item",
   "Goods", "Trade", "Commerce", "Sale", "Shop"]

structure HandleResult where
  outputs : List Output
  parsed : List String
  deriving DecidableEq

/-- The `elif` chain (lines 150–176): core and noise methods are dispatched
only when their callback is registered; the three commerce methods are
dispatched unconditionally (dedup is disabled at these call sites — the
`_isDuplicateMessage` check is never invoked).  `parsed` records which
`_parseXxxMsg` calls ran. -/
def dispatchMsg (h : Handlers) (m : Msg) : HandleResult :=
  if m.method = "WebcastChatMessage" && h.onChat.registered then
    ⟨parseChatMsg h m.payload, [m.method]⟩
  else if m.method = "WebcastGiftMessage" && h.onGift.registered then
    ⟨parseGiftMsg h m.payload, [m.method]⟩
  else if m.method = "WebcastMemberMessage" && h.onMember.registered then
    ⟨parseMemberMsg h m.payload, [m.method]⟩
  else if m.method = "WebcastLikeMessage" && h.onLike.registered then
    ⟨parseLikeMsg h m.payload, [m.method]⟩
  else if m.method = "WebcastSocialMessage" && h.onSocial.registered then
    ⟨parseSocialMsg h m.payload, [m.method]⟩
  else if m.method = "WebcastEmojiChatMessage" && h.onEmojiChat.registered then
    ⟨parseEmojiChatMsg h m.payload, [m.method]⟩
  else if m.method = "WebcastRoomUserSeqMessage" && h.onRoomUserSeq.registered then
    ⟨parseRoomUserSeqMsg h m.payload, [m.method]⟩
  else if m.method = "WebcastRoomStatsMessage" && h.onRoomStats.registered then
    ⟨parseRoomStatsMsg h m.payload, [m.method]⟩
  else if m.method = "WebcastControlMessage" && h.onControl.registered then
    ⟨parseControlMsg h m.payload, [m.method]⟩
  else if m.method = "WebcastProductChangeMessage" then
    ⟨parseProductChangeMsg h m.payload, [m.method]⟩
  else if m.method = "WebcastLiveShoppingMessage" then
    ⟨parseLiveShoppingMsg h m.payload, [m.method]⟩
  else if m.method = "WebcastLiveEcomGeneralMessage" then
    ⟨parseLiveEcomGeneralMsg h m.raw, [m.method]⟩
  else ⟨[], []⟩

/-- One iteration of the `for msg in response.messages_list` loop, inside its
own `try`: `on_raw_message` first (if it raises, the per-message `except`
reports `[消息解析异常] {method}: {e}` and the rest of this message is
skipped), then the classification logging, then the dispatch chain. -/
def handleMsg (h : Handlers) (m : Msg) : HandleResult :=
  match h.onRawMessage with
  | .raises e =>
    ⟨if h.onError then [.err ("[消息解析异常] " ++ m.method ++ ": " ++ e)] else [], []⟩
  | cb =>
    let rawOut : List Output :=
      match cb with
      | .ok => [.rawMsg m.method m.raw]
      | _ => []
    let isUseless := uselessMessageTypes.contains m.method
    let isShopping := shoppingMessageTypes.contains m.method
    let isCore := coreMessageTypes.contains m.method
    let hasKw := shoppingKeywords.any (fun k => isSub k.toList m.method.toList)
    let diagOut : List Output :=
      if h.onError && !isUseless && !isCore then
        if isShopping || hasKw then
          [.err ("[消息类型] " ++ m.method ++ " - 数据长度: " ++ toString m.raw.length)]
        else
          match extractReadableContent m.raw with
          | some content =>
            if content ≠ "" then
              [.err ("[🔍 未知消息] " ++ m.method ++ " - 内容: " ++ content)]
            else []
          | none => []
      else []
    let d := dispatchMsg h m
    ⟨rawOut ++ diagOut ++ d.outputs, d.parsed⟩

def processMessages (h : Handlers) (l : List Msg) : List Output :=
  l.flatMap (fun m => (handleMsg h m).outputs)

/-! ### Frame level (`_wsOnMessage` top, lines 69–86) -/

structure Response where
  needAck : Bool
  internalExt : String
  messagesList : List Msg

/-- `str.encode('utf-8')` for one code point. -/
def utf8EncodeCp (c : Nat) : List Nat :=
  if c ≤ 127 then [c]
  else if c ≤ 2047 then [192 + c / 64, 128 + c % 64]
  else if c ≤ 65535 then [224 + c / 4096, 128 + c / 64 % 64, 128 + c % 64]
  else [240 + c / 262144, 128 + c / 4096 % 64, 128 + c / 64 % 64, 128 + c % 64]

def utf8Encode (s : String) : List Nat :=
  s.toList.flatMap (fun c => utf8EncodeCp c.toNat)

/-- An outgoing `PushFrame(log_id=…, payload_type='ack', payload=…)`. -/
structure AckFrame where
  logId : Nat
  payload : List Nat
  deriving DecidableEq

/-- One inbound WebSocket message: the `PushFrame`'s `log_id`, the raw frame
bytes (handed to the top-level `on_raw_message`), and the combined outcome of
`gzip.decompress(package.payload)` + `Response().parse(...)`. -/
structure InboundFrame where
  logId : Nat
  frameRaw : List Nat
  payloadDecode : Except String Response

structure FrameResult where
  acks : List AckFrame
  outputs : List Output

/-- `_wsOnMessage`: top-level `on_raw_message` (raising there aborts the
whole frame via the outer `except`), then decompress + parse (failure is the
outer `except` as well), then the ack step, then the per-message loop.  The
transport send of the ack is assumed not to raise. -/
def processFrame (h : Handlers) (f : InboundFrame) : FrameResult :=
  match h.onRawMessage with
  | .raises e =>
    ⟨[], if h.onError then [.err ("[消息解析错误] " ++ e)] else []⟩
  | cb =>
    let rawOut : List Output :=
      match cb with
      | .ok => [.rawMsg "WebSocketRawMessage" f.frameRaw]
      | _ => []
    match f.payloadDecode with
    | .error e =>
      ⟨[], rawOut ++ (if h.onError then [.err ("[消息解析错误] " ++ e)] else [])⟩
    | .ok resp =>
      ⟨if resp.needAck then [⟨f.logId, utf8Encode resp.internalExt⟩] else [],
       rawOut ++ processMessages h resp.messagesList⟩

/-! ### BarrageManager wiring: callbacks funnel into the transcript -/

/-- What each fetcher output contributes to the transcript, per the
`_handle_*_message` handlers (`on_raw_message` is `None` in the manager, so
`rawMsg` outputs never occur there; `_write_to_file`'s wall-clock stamp is
not modelled). -/
def renderOutput : Output → List String
  | .rawMsg _ _ => []
  | .onChat n c => [chatLine n c]
  | .onGift n g k => [giftLine n g k]
  | .onMember n g => [memberLine n g]
  | .onLike n k => [likeLine n k]
  | .onSocial n i => [socialLine n i]
  | .onEmojiChat n i d => [emojiChatLine n i d]
  | .onRoomUserSeq t pv => [roomUserSeqLine t pv]
  | .onRoomStats d => roomStatsLines d
  | .onControl s => [controlLine s]
  | .err s => [errorLine s]

/-- The handler table `BarrageManager.start_barrage_recording` builds: every
typed callback registered, `on_error` registered, `on_raw_message = None`. -/
def managerHandlers : Handlers :=
  ⟨.ok, .ok, .ok, .ok, .ok, .ok, .ok, .ok, .ok, true, .absent⟩

def transcriptLines (h : Handlers) (msgs : List Msg) : List String :=
  (processMessages h msgs).flatMap renderOutput

/-- A transcript line produced by the live-shopping parser: via
`_handle_error_message` it starts with `[系统] [直播购物]` or
`[系统] [🛒 下单]`. -/
def isShoppingOrderLine (l : String) : Bool :=
  startsWith "[系统] [直播购物]".toList l.toList ||
    startsWith "[系统] [🛒 下单]".toList l.toList

/-! ## C1: burst of same-second live-shopping messages -/

theorem lineFalse_msgType (s : String) :
    isShoppingOrderLine ("[系统] " ++ ("[消息类型] " ++ s)) = false := by
  simp [isShoppingOrderLine, startsWith, String.toList, String.data_append]

theorem lineTrue_ls (s : String) :
    isShoppingOrderLine ("[系统] " ++ ("[直播购物] " ++ s)) = true := by
  simp [isShoppingOrderLine, startsWith, String.toList, String.data_append]

theorem lineTrue_order (s : String) :
    isShoppingOrderLine ("[系统] " ++ ("[🛒 下单] " ++ s)) = true := by
  simp [isShoppingOrderLine, startsWith, String.toList, String.data_append]

/-- C1: the claim says a Response with three live-shopping messages for
`promotion_id=99`, all with `event_time` in the same second, yields exactly
one `[直播购物]`/`[🛒 下单]` transcript line.  Refuted: `_wsOnMessage`
dispatches `WebcastLiveShoppingMessage` straight to `_parseLiveShoppingMsg`
("暂时禁用去重" — `_isDuplicateMessage` is never called), so each of the
three messages contributes its own line: the transcript gains three. -/
theorem c1_counterexample :
    (1700000000123 / 1000 : Nat) = 1700000000456 / 1000 ∧
    (1700000000456 / 1000 : Nat) = 1700000000789 / 1000 ∧
    (transcriptLines managerHandlers
      [⟨"WebcastLiveShoppingMessage", [8, 1], .liveShopping 1 99 1700000000123⟩,
       ⟨"WebcastLiveShoppingMessage", [8, 2], .liveShopping 1 99 1700000000456⟩,
       ⟨"WebcastLiveShoppingMessage", [8, 3], .liveShopping 1 99 1700000000789⟩]).countP
      isShoppingOrderLine = 3 := by
  refine ⟨by decide, by decide, ?_⟩
  decide

/-- C1 (amended): with deduplication disabled in this code path, a Response
with three decodable live-shopping messages for the same promotion and the
same whole second yields one `[直播购物]` line per message — three lines, or
six when the action is an order (`msg_type = 2`, which adds a `[🛒 下单]`
line per message).  The same-second hypotheses are stated to mirror the
scenario; they do not affect the count because the dedup cache is never
consulted. -/
theorem c1_live_shopping_line_count (mt ct1 ct2 ct3 : Nat) (r1 r2 r3 : List Nat)
    (h1 : 0 < ct1) (h2 : 0 < ct2) (h3 : 0 < ct3)
    (hs1 : ct1 / 1000 = ct2 / 1000) (hs2 : ct2 / 1000 = ct3 / 1000) :
    (transcriptLines managerHandlers
      [⟨"WebcastLiveShoppingMessage", r1, .liveShopping mt 99 ct1⟩,
       ⟨"WebcastLiveShoppingMessage", r2, .liveShopping mt 99 ct2⟩,
       ⟨"WebcastLiveShoppingMessage", r3, .liveShopping mt 99 ct3⟩]).countP
      isShoppingOrderLine = if mt = 2 then 6 else 3 := by
  clear hs1 hs2
  by_cases hm : mt = 2 <;>
    simp [transcriptLines, processMessages, handleMsg, dispatchMsg,
      parseLiveShoppingMsg, parseLiveShopping, managerHandlers, CB.registered,
      uselessMessageTypes, coreMessageTypes, shoppingMessageTypes,
      renderOutput, errorLine, h1, h2, h3, hm, String.append_assoc,
      List.countP_cons, List.countP_append, lineFalse_msgType, lineTrue_ls,
      lineTrue_order]

theorem c1_live_shopping_line_count_witness :
    (transcriptLines managerHandlers
      [⟨"WebcastLiveShoppingMessage", [8, 1], .liveShopping 2 99 1700000000123⟩,
       ⟨"WebcastLiveShoppingMessage", [8, 2], .liveShopping 2 99 1700000000456⟩,
       ⟨"WebcastLiveShoppingMessage", [8, 3], .liveShopping 2 99 1700000000789⟩]).countP
      isShoppingOrderLine = 6 := by
  have h := c1_live_shopping_line_count 2 1700000000123 1700000000456 1700000000789
    [8, 1] [8, 2] [8, 3] (by decide) (by decide) (by decide) (by decide) (by decide)
  simpa using h

/-! ## C3: acknowledgement discipline -/

/-- C3: for every inbound frame whose payload decodes to a Response with
`need_ack` set, exactly one ack frame is sent, echoing the frame's `log_id`
and carrying the UTF-8 bytes of that Response's `internal_ext`; with
`need_ack` unset no ack is sent.  (The top-level `on_raw_message` call runs
before the Response is parsed, so the Response is only reached when that
callback does not raise.) -/
theorem c3_ack_per_response (h : Handlers) (f : InboundFrame) (resp : Response)
    (hdec : f.payloadDecode = .ok resp)
    (hraw : h.onRawMessage.doesRaise = false) :
    (resp.needAck = true →
      (processFrame h f).acks = [AckFrame.mk f.logId (utf8Encode resp.internalExt)]) ∧
    (resp.needAck = false → (processFrame h f).acks = []) := by
  cases hr : h.onRawMessage with
  | raises e => rw [hr] at hraw; simp [CB.doesRaise] at hraw
  | absent =>
    constructor <;> intro hna <;> simp [processFrame, hr, hdec, hna]
  | ok =>
    constructor <;> intro hna <;> simp [processFrame, hr, hdec, hna]

theorem c3_ack_per_response_witness :
    (processFrame managerHandlers ⟨42, [], .ok ⟨true, "tok123", []⟩⟩).acks =
      [AckFrame.mk 42 (utf8Encode "tok123")] ∧
    utf8Encode "tok123" = [116, 111, 107, 49, 50, 51] ∧
    (processFrame managerHandlers ⟨7, [], .ok ⟨false, "tok123", []⟩⟩).acks = [] := by
  refine ⟨?_, by decide, ?_⟩
  · exact (c3_ack_per_response managerHandlers ⟨42, [], .ok ⟨true, "tok123", []⟩⟩
      ⟨true, "tok123", []⟩ rfl (by decide)).1 rfl
  · exact (c3_ack_per_response managerHandlers ⟨7, [], .ok ⟨false, "tok123", []⟩⟩
      ⟨false, "tok123", []⟩ rfl (by decide)).2 rfl

/-! ## C6: commerce messages are processed independently of `on_error` -/

/-- C6: for every commerce message (product-change, live-shopping, generic
e-commerce), the dispatch chain reaches its parse method without consulting
any callback registration (unlike the core methods, which are guarded by
`and self.on_x`): the decode runs for every value of `on_error`, and the
classification stage emits the `[消息类型]` length line exactly when
`on_error` is registered; the parse methods' own emissions are appended
after it.  (`on_raw_message` must not raise, since a raising raw callback
aborts every message before dispatch.) -/
theorem c6_commerce_dispatch_unconditional (h : Handlers) (m : Msg)
    (hc : m.method ∈ shoppingMessageTypes)
    (hraw : h.onRawMessage.doesRaise = false) :
    (handleMsg h m).parsed = [m.method] ∧
    (handleMsg h m).outputs =
      (if h.onRawMessage.registered then [Output.rawMsg m.method m.raw] else []) ++
      (if h.onError then
        [Output.err ("[消息类型] " ++ m.method ++ " - 数据长度: " ++
          toString m.raw.length)]
       else []) ++
      (dispatchMsg h m).outputs ∧
    ((handleMsg { h with onError := true } m).parsed =
      (handleMsg { h with onError := false } m).parsed) := by
  have hsets : m.method = "WebcastProductChangeMessage" ∨
      m.method = "WebcastLiveShoppingMessage" ∨
      m.method = "WebcastLiveEcomGeneralMessage" := by
    simpa [shoppingMessageTypes] using hc
  cases hr : h.onRawMessage with
  | raises e => rw [hr] at hraw; simp [CB.doesRaise] at hraw
  | absent =>
    rcases hsets with hm | hm | hm <;>
      refine ⟨?_, ?_, ?_⟩ <;>
        simp [handleMsg, dispatchMsg, hr, hm, CB.registered,
          uselessMessageTypes, coreMessageTypes, shoppingMessageTypes]
  | ok =>
    rcases hsets with hm | hm | hm <;>
      refine ⟨?_, ?_, ?_⟩ <;>
        simp [handleMsg, dispatchMsg, hr, hm, CB.registered,
          uselessMessageTypes, coreMessageTypes, shoppingMessageTypes]

theorem c6_commerce_dispatch_unconditional_witness :
    (handleMsg { managerHandlers with onError := false }
      ⟨"WebcastProductChangeMessage", [10, 2], .productChange "上架了新商品"⟩).parsed =
      ["WebcastProductChangeMessage"] ∧
    (handleMsg managerHandlers
      ⟨"WebcastProductChangeMessage", [10, 2], .productChange "上架了新商品"⟩).outputs =
      [Output.err "[消息类型] WebcastProductChangeMessage - 数据长度: 2",
       Output.err "[商品变更] 上架了新商品"] := by
  constructor
  · exact (c6_commerce_dispatch_unconditional { managerHandlers with onError := false }
      ⟨"WebcastProductChangeMessage", [10, 2], .productChange "上架了新商品"⟩
      (by decide) (by decide)).1
  · have h := (c6_commerce_dispatch_unconditional managerHandlers
      ⟨"WebcastProductChangeMessage", [10, 2], .productChange "上架了新商品"⟩
      (by decide) (by decide)).2.1
    rw [h]
    decide

/-! ## C5: per-message decode errors -/

/-- C5: the claim says a decode exception is reported "with the offending
method name".  Refuted: a malformed gift payload is caught inside
`_parseGiftMsg`, whose `except` emits the fixed label `[礼物解析错误]`
followed by the exception text — the method name `WebcastGiftMessage` does
not occur in the report (the `[消息解析异常] {method}: …` report of the
per-message `except` is only reached by exceptions that escape the parse
methods, and decode errors never do).  Subsequent messages are still
processed. -/
theorem c5_counterexample :
    processMessages managerHandlers
      [⟨"WebcastChatMessage", [1], .chat "Alice" "hi"⟩,
       ⟨"WebcastGiftMessage", [2], .malformed "truncated message"⟩,
       ⟨"WebcastChatMessage", [3], .chat "Bob" "yo"⟩] =
      [.onChat "Alice" "hi", .err "[礼物解析错误] truncated message",
       .onChat "Bob" "yo"] ∧
    isSub "WebcastGiftMessage".toList
      "[礼物解析错误] truncated message".toList = false := by
  decide

/-- The eleven methods whose dispatch path decodes via a typed
`XxxMessage().parse` call (the generic e-commerce method hex-scans the raw
bytes without a protobuf decode, so it has no decode-failure path). -/
def typedParseMethods : List String :=
  ["WebcastChatMessage", "WebcastGiftMessage", "WebcastMemberMessage",
   "WebcastLikeMessage", "WebcastSocialMessage", "WebcastEmojiChatMessage",
   "WebcastRoomUserSeqMessage", "WebcastRoomStatsMessage",
   "WebcastControlMessage", "WebcastProductChangeMessage",
   "WebcastLiveShoppingMessage"]

/-- Each parse method's fixed error-report label (the text its `except`
prepends to the exception). -/
def parseErrorLabel (method : String) : String :=
  if method = "WebcastChatMessage" then "[弹幕解析错误] "
  else if method = "WebcastGiftMessage" then "[礼物解析错误] "
  else if method = "WebcastMemberMessage" then "[观众进入解析错误] "
  else if method = "WebcastLikeMessage" then "[点赞解析错误] "
  else if method = "WebcastSocialMessage" then "[关注解析错误] "
  else if method = "WebcastEmojiChatMessage" then "[表情弹幕解析错误] "
  else if method = "WebcastRoomUserSeqMessage" then "[房间用户序列解析错误] "
  else if method = "WebcastRoomStatsMessage" then "[房间统计解析错误] "
  else if method = "WebcastControlMessage" then "[控制消息解析错误] "
  else if method = "WebcastProductChangeMessage" then "[商品变更解析错误] "
  else if method = "WebcastLiveShoppingMessage" then "[直播购物解析错误] "
  else ""

/-- The callback consulted by each guarded `elif` of the dispatch chain;
the three commerce methods are unguarded (`none`). -/
def dispatchGuard (h : Handlers) (method : String) : Option CB :=
  if method = "WebcastChatMessage" then some h.onChat
  else if method = "WebcastGiftMessage" then some h.onGift
  else if method = "WebcastMemberMessage" then some h.onMember
  else if method = "WebcastLikeMessage" then some h.onLike
  else if method = "WebcastSocialMessage" then some h.onSocial
  else if method = "WebcastEmojiChatMessage" then some h.onEmojiChat
  else if method = "WebcastRoomUserSeqMessage" then some h.onRoomUserSeq
  else if method = "WebcastRoomStatsMessage" then some h.onRoomStats
  else if method = "WebcastControlMessage" then some h.onControl
  else none

/-- Whether a payload is the typed view the given method's decoder accepts
(i.e. `XxxMessage().parse` succeeds on it). -/
def payloadMatches (method : String) (p : Payload) : Bool :=
  if method = "WebcastChatMessage" then
    match p with | .chat _ _ => true | _ => false
  else if method = "WebcastGiftMessage" then
    match p with | .gift _ _ _ => true | _ => false
  else if method = "WebcastMemberMessage" then
    match p with | .member _ _ => true | _ => false
  else if method = "WebcastLikeMessage" then
    match p with | .like _ _ => true | _ => false
  else if method = "WebcastSocialMessage" then
    match p with | .social _ _ => true | _ => false
  else if method = "WebcastEmojiChatMessage" then
    match p with | .emojiChat _ _ _ => true | _ => false
  else if method = "WebcastRoomUserSeqMessage" then
    match p with | .roomUserSeq _ _ => true | _ => false
  else if method = "WebcastRoomStatsMessage" then
    match p with | .roomStats _ => true | _ => false
  else if method = "WebcastControlMessage" then
    match p with | .control _ => true | _ => false
  else false

/-- The `on_raw_message` echo at the head of each message's outputs. -/
def rawEcho (h : Handlers) (m : Msg) : List Output :=
  if h.onRawMessage.registered then [Output.rawMsg m.method m.raw] else []

/-- C5 (amended): for every Response and every message in it, an exception
raised while decoding the message or thrown by its typed callback is caught
inside that parse method and reported on the diagnostic channel with the
method's fixed per-type label followed by the exception text — not with the
raw method name, which none of the labels contains; the `[消息解析异常]
{method}: {e}` report of the per-message `except` is reached only by
exceptions that escape the parse methods (in this model, a raising
`on_raw_message`), and it skips just that message.  One message's handling
never affects its neighbours, and `processMessages` is total, so subsequent
messages of the same Response — and later Responses, processing being
stateless across frames — are processed and the session survives.
Conjuncts: (1) per-message isolation for an arbitrary message; (2) decode
exceptions, quantified over all eleven typed parse methods (with the
`elif` guard satisfied; commerce methods also log their `[消息类型]` length
line first); (3) callback-raised exceptions, quantified over all nine
guarded callbacks; (4) the escape branch reports with the method name and
skips the message; (5) no parse method's label contains its method name. -/
theorem c5_exception_isolation :
    (∀ (h : Handlers) (pre post : List Msg) (m : Msg),
      processMessages h (pre ++ m :: post) =
        processMessages h pre ++ (handleMsg h m).outputs ++
          processMessages h post) ∧
    (∀ (h : Handlers) (m : Msg) (e : String),
      h.onError = true → h.onRawMessage.doesRaise = false →
      m.payload = Payload.malformed e →
      m.method ∈ typedParseMethods →
      (∀ cb, dispatchGuard h m.method = some cb → cb.registered = true) →
      (handleMsg h m).outputs =
        rawEcho h m ++
        (if m.method ∈ shoppingMessageTypes then
          [Output.err ("[消息类型] " ++ m.method ++ " - 数据长度: " ++
            toString m.raw.length)]
         else []) ++
        [Output.err (parseErrorLabel m.method ++ e)]) ∧
    (∀ (h : Handlers) (m : Msg) (e : String),
      h.onError = true → h.onRawMessage.doesRaise = false →
      m.method ∈ typedParseMethods →
      dispatchGuard h m.method = some (CB.raises e) →
      payloadMatches m.method m.payload = true →
      (handleMsg h m).outputs =
        rawEcho h m ++ [Output.err (parseErrorLabel m.method ++ e)]) ∧
    (∀ (h : Handlers) (m : Msg) (e : String),
      h.onRawMessage = CB.raises e →
      (handleMsg h m).outputs =
        (if h.onError then
          [Output.err ("[消息解析异常] " ++ m.method ++ ": " ++ e)]
         else []) ∧
      (handleMsg h m).parsed = []) ∧
    (∀ method ∈ typedParseMethods,
      isSub method.toList (parseErrorLabel method).toList = false) := by
  refine ⟨?_, ?_, ?_, ?_, ?_⟩
  · intro h pre post m
    simp only [processMessages, List.flatMap_append, List.flatMap_cons,
      List.append_assoc]
  · intro h m e herr hraw hpay hmem hreg
    obtain ⟨method, raw, payload⟩ := m
    simp only at hpay hmem hreg ⊢
    subst hpay
    simp only [typedParseMethods, List.mem_cons, List.not_mem_nil, or_false] at hmem
    cases hr : h.onRawMessage with
    | raises e2 => rw [hr] at hraw; simp [CB.doesRaise] at hraw
    | absent =>
      have hre : CB.absent.registered = false := rfl
      rcases hmem with rfl | rfl | rfl | rfl | rfl | rfl | rfl | rfl | rfl | rfl | rfl <;>
        simp [handleMsg, dispatchMsg, hr, hre, herr, rawEcho, parseErrorLabel,
          hreg, dispatchGuard,
          parseChatMsg, parseChat, parseGiftMsg, parseGift, parseMemberMsg,
          parseMember, parseLikeMsg, parseLike, parseSocialMsg, parseSocial,
          parseEmojiChatMsg, parseEmojiChat, parseRoomUserSeqMsg, parseRoomUserSeq,
          parseRoomStatsMsg, parseRoomStats, parseControlMsg, parseControl,
          parseProductChangeMsg, parseProductChange, parseLiveShoppingMsg,
          parseLiveShopping, uselessMessageTypes, coreMessageTypes,
          shoppingMessageTypes]
    | ok =>
      have hre : CB.ok.registered = true := rfl
      rcases hmem with rfl | rfl | rfl | rfl | rfl | rfl | rfl | rfl | rfl | rfl | rfl <;>
        simp [handleMsg, dispatchMsg, hr, hre, herr, rawEcho, parseErrorLabel,
          hreg, dispatchGuard,
          parseChatMsg, parseChat, parseGiftMsg, parseGift, parseMemberMsg,
          parseMember, parseLikeMsg, parseLike, parseSocialMsg, parseSocial,
          parseEmojiChatMsg, parseEmojiChat, parseRoomUserSeqMsg, parseRoomUserSeq,
          parseRoomStatsMsg, parseRoomStats, parseControlMsg, parseControl,
          parseProductChangeMsg, parseProductChange, parseLiveShoppingMsg,
          parseLiveShopping, uselessMessageTypes, coreMessageTypes,
          shoppingMessageTypes]
  · intro h m e herr hraw hmem hguard hpm
    have hrz : ∀ e2 : String, (CB.raises e2).registered = true := fun _ => rfl
    obtain ⟨method, raw, payload⟩ := m
    simp only at hguard hpm hmem ⊢
    simp only [typedParseMethods, List.mem_cons, List.not_mem_nil, or_false] at hmem
    rcases hmem with rfl | rfl | rfl | rfl | rfl | rfl | rfl | rfl | rfl | rfl | rfl
    · simp [dispatchGuard] at hguard
      simp [payloadMatches] at hpm
      cases payload
      all_goals simp at hpm
      case chat =>
        cases hr : h.onRawMessage with
        | raises e2 => rw [hr] at hraw; simp [CB.doesRaise] at hraw
        | absent =>
          have hre : CB.absent.registered = false := rfl
          simp [handleMsg, dispatchMsg, hr, hre, herr, hguard, rawEcho, parseErrorLabel,
          parseChatMsg, parseChat, parseGiftMsg, parseGift, parseMemberMsg,
          parseMember, parseLikeMsg, parseLike, parseSocialMsg, parseSocial,
          parseEmojiChatMsg, parseEmojiChat, parseRoomUserSeqMsg, parseRoomUserSeq,
          parseRoomStatsMsg, parseRoomStats, parseControlMsg, parseControl,
          uselessMessageTypes, coreMessageTypes, shoppingMessageTypes, hrz]
        | ok =>
          have hre : CB.ok.registered = true := rfl
          simp [handleMsg, dispatchMsg, hr, hre, herr, hguard, rawEcho, parseErrorLabel,
          parseChatMsg, parseChat, parseGiftMsg, parseGift, parseMemberMsg,
          parseMember, parseLikeMsg, parseLike, parseSocialMsg, parseSocial,
          parseEmojiChatMsg, parseEmojiChat, parseRoomUserSeqMsg, parseRoomUserSeq,
          parseRoomStatsMsg, parseRoomStats, parseControlMsg, parseControl,
          uselessMessageTypes, coreMessageTypes, shoppingMessageTypes, hrz]
    · simp [dispatchGuard] at hguard
      simp [payloadMatches] at hpm
      cases payload
      all_goals simp at hpm
      case gift =>
        cases hr : h.onRawMessage with
        | raises e2 => rw [hr] at hraw; simp [CB.doesRaise] at hraw
        | absent =>
          have hre : CB.absent.registered = false := rfl
          simp [handleMsg, dispatchMsg, hr, hre, herr, hguard, rawEcho, parseErrorLabel,
          parseChatMsg, parseChat, parseGiftMsg, parseGift, parseMemberMsg,
          parseMember, parseLikeMsg, parseLike, parseSocialMsg, parseSocial,
          parseEmojiChatMsg, parseEmojiChat, parseRoomUserSeqMsg, parseRoomUserSeq,
          parseRoomStatsMsg, parseRoomStats, parseControlMsg, parseControl,
          uselessMessageTypes, coreMessageTypes, shoppingMessageTypes, hrz]
        | ok =>
          have hre : CB.ok.registered = true := rfl
          simp [handleMsg, dispatchMsg, hr, hre, herr, hguard, rawEcho, parseErrorLabel,
          parseChatMsg, parseChat, parseGiftMsg, parseGift, parseMemberMsg,
          parseMember, parseLikeMsg, parseLike, parseSocialMsg, parseSocial,
          parseEmojiChatMsg, parseEmojiChat, parseRoomUserSeqMsg, parseRoomUserSeq,
          parseRoomStatsMsg, parseRoomStats, parseControlMsg, parseControl,
          uselessMessageTypes, coreMessageTypes, shoppingMessageTypes, hrz]
    · simp [dispatchGuard] at hguard
      simp [payloadMatches] at hpm
      cases payload
      all_goals simp at hpm
      case member =>
        cases hr : h.onRawMessage with
        | raises e2 => rw [hr] at hraw; simp [CB.doesRaise] at hraw
        | absent =>
          have hre : CB.absent.registered = false := rfl
          simp [handleMsg, dispatchMsg, hr, hre, herr, hguard, rawEcho, parseErrorLabel,
          parseChatMsg, parseChat, parseGiftMsg, parseGift, parseMemberMsg,
          parseMember, parseLikeMsg, parseLike, parseSocialMsg, parseSocial,
          parseEmojiChatMsg, parseEmojiChat, parseRoomUserSeqMsg, parseRoomUserSeq,
          parseRoomStatsMsg, parseRoomStats, parseControlMsg, parseControl,
          uselessMessageTypes, coreMessageTypes, shoppingMessageTypes, hrz]
        | ok =>
          have hre : CB.ok.registered = true := rfl
          simp [handleMsg, dispatchMsg, hr, hre, herr, hguard, rawEcho, parseErrorLabel,
          parseChatMsg, parseChat, parseGiftMsg, parseGift, parseMemberMsg,
          parseMember, parseLikeMsg, parseLike, parseSocialMsg, parseSocial,
          parseEmojiChatMsg, parseEmojiChat, parseRoomUserSeqMsg, parseRoomUserSeq,
          parseRoomStatsMsg, parseRoomStats, parseControlMsg, parseControl,
          uselessMessageTypes, coreMessageTypes, shoppingMessageTypes, hrz]
    · simp [dispatchGuard] at hguard
      simp [payloadMatches] at hpm
      cases payload
      all_goals simp at hpm
      case like =>
        cases hr : h.onRawMessage with
        | raises e2 => rw [hr] at hraw; simp [CB.doesRaise] at hraw
        | absent =>
          have hre : CB.absent.registered = false := rfl
          simp [handleMsg, dispatchMsg, hr, hre, herr, hguard, rawEcho, parseErrorLabel,
          parseChatMsg, parseChat, parseGiftMsg, parseGift, parseMemberMsg,
          parseMember, parseLikeMsg, parseLike, parseSocialMsg, parseSocial,
          parseEmojiChatMsg, parseEmojiChat, parseRoomUserSeqMsg, parseRoomUserSeq,
          parseRoomStatsMsg, parseRoomStats, parseControlMsg, parseControl,
          uselessMessageTypes, coreMessageTypes, shoppingMessageTypes, hrz]
        | ok =>
          have hre : CB.ok.registered = true := rfl
          simp [handleMsg, dispatchMsg, hr, hre, herr, hguard, rawEcho, parseErrorLabel,
          parseChatMsg, parseChat, parseGiftMsg, parseGift, parseMemberMsg,
          parseMember, parseLikeMsg, parseLike, parseSocialMsg, parseSocial,
          parseEmojiChatMsg, parseEmojiChat, parseRoomUserSeqMsg, parseRoomUserSeq,
          parseRoomStatsMsg, parseRoomStats, parseControlMsg, parseControl,
          uselessMessageTypes, coreMessageTypes, shoppingMessageTypes, hrz]
    · simp [dispatchGuard] at hguard
      simp [payloadMatches] at hpm
      cases payload
      all_goals simp at hpm
      case social =>
        cases hr : h.onRawMessage with
        | raises e2 => rw [hr] at hraw; simp [CB.doesRaise] at hraw
        | absent =>
          have hre : CB.absent.registered = false := rfl
          simp [handleMsg, dispatchMsg, hr, hre, herr, hguard, rawEcho, parseErrorLabel,
          parseChatMsg, parseChat, parseGiftMsg, parseGift, parseMemberMsg,
          parseMember, parseLikeMsg, parseLike, parseSocialMsg, parseSocial,
          parseEmojiChatMsg, parseEmojiChat, parseRoomUserSeqMsg, parseRoomUserSeq,
          parseRoomStatsMsg, parseRoomStats, parseControlMsg, parseControl,
          uselessMessageTypes, coreMessageTypes, shoppingMessageTypes, hrz]
        | ok =>
          have hre : CB.ok.registered = true := rfl
          simp [handleMsg, dispatchMsg, hr, hre, herr, hguard, rawEcho, parseErrorLabel,
          parseChatMsg, parseChat, parseGiftMsg, parseGift, parseMemberMsg,
          parseMember, parseLikeMsg, parseLike, parseSocialMsg, parseSocial,
          parseEmojiChatMsg, parseEmojiChat, parseRoomUserSeqMsg, parseRoomUserSeq,
          parseRoomStatsMsg, parseRoomStats, parseControlMsg, parseControl,
          uselessMessageTypes, coreMessageTypes, shoppingMessageTypes, hrz]
    · simp [dispatchGuard] at hguard
      simp [payloadMatches] at hpm
      cases payload
      all_goals simp at hpm
      case emojiChat =>
        cases hr : h.onRawMessage with
        | raises e2 => rw [hr] at hraw; simp [CB.doesRaise] at hraw
        | absent =>
          have hre : CB.absent.registered = false := rfl
          simp [handleMsg, dispatchMsg, hr, hre, herr, hguard, rawEcho, parseErrorLabel,
          parseChatMsg, parseChat, parseGiftMsg, parseGift, parseMemberMsg,
          parseMember, parseLikeMsg, parseLike, parseSocialMsg, parseSocial,
          parseEmojiChatMsg, parseEmojiChat, parseRoomUserSeqMsg, parseRoomUserSeq,
          parseRoomStatsMsg, parseRoomStats, parseControlMsg, parseControl,
          uselessMessageTypes, coreMessageTypes, shoppingMessageTypes, hrz]
        | ok =>
          have hre : CB.ok.registered = true := rfl
          simp [handleMsg, dispatchMsg, hr, hre, herr, hguard, rawEcho, parseErrorLabel,
          parseChatMsg, parseChat, parseGiftMsg, parseGift, parseMemberMsg,
          parseMember, parseLikeMsg, parseLike, parseSocialMsg, parseSocial,
          parseEmojiChatMsg, parseEmojiChat, parseRoomUserSeqMsg, parseRoomUserSeq,
          parseRoomStatsMsg, parseRoomStats, parseControlMsg, parseControl,
          uselessMessageTypes, coreMessageTypes, shoppingMessageTypes, hrz]
    · simp [dispatchGuard] at hguard
      simp [payloadMatches] at hpm
      cases payload
      all_goals simp at hpm
      case roomUserSeq =>
        cases hr : h.onRawMessage with
        | raises e2 => rw [hr] at hraw; simp [CB.doesRaise] at hraw
        | absent =>
          have hre : CB.absent.registered = false := rfl
          simp [handleMsg, dispatchMsg, hr, hre, herr, hguard, rawEcho, parseErrorLabel,
          parseChatMsg, parseChat, parseGiftMsg, parseGift, parseMemberMsg,
          parseMember, parseLikeMsg, parseLike, parseSocialMsg, parseSocial,
          parseEmojiChatMsg, parseEmojiChat, parseRoomUserSeqMsg, parseRoomUserSeq,
          parseRoomStatsMsg, parseRoomStats, parseControlMsg, parseControl,
          uselessMessageTypes, coreMessageTypes, shoppingMessageTypes, hrz]
        | ok =>
          have hre : CB.ok.registered = true := rfl
          simp [handleMsg, dispatchMsg, hr, hre, herr, hguard, rawEcho, parseErrorLabel,
          parseChatMsg, parseChat, parseGiftMsg, parseGift, parseMemberMsg,
          parseMember, parseLikeMsg, parseLike, parseSocialMsg, parseSocial,
          parseEmojiChatMsg, parseEmojiChat, parseRoomUserSeqMsg, parseRoomUserSeq,
          parseRoomStatsMsg, parseRoomStats, parseControlMsg, parseControl,
          uselessMessageTypes, coreMessageTypes, shoppingMessageTypes, hrz]
    · simp [dispatchGuard] at hguard
      simp [payloadMatches] at hpm
      cases payload
      all_goals simp at hpm
      case roomStats =>
        cases hr : h.onRawMessage with
        | raises e2 => rw [hr] at hraw; simp [CB.doesRaise] at hraw
        | absent =>
          have hre : CB.absent.registered = false := rfl
          simp [handleMsg, dispatchMsg, hr, hre, herr, hguard, rawEcho, parseErrorLabel,
          parseChatMsg, parseChat, parseGiftMsg, parseGift, parseMemberMsg,
          parseMember, parseLikeMsg, parseLike, parseSocialMsg, parseSocial,
          parseEmojiChatMsg, parseEmojiChat, parseRoomUserSeqMsg, parseRoomUserSeq,
          parseRoomStatsMsg, parseRoomStats, parseControlMsg, parseControl,
          uselessMessageTypes, coreMessageTypes, shoppingMessageTypes, hrz]
        | ok =>
          have hre : CB.ok.registered = true := rfl
          simp [handleMsg, dispatchMsg, hr, hre, herr, hguard, rawEcho, parseErrorLabel,
          parseChatMsg, parseChat, parseGiftMsg, parseGift, parseMemberMsg,
          parseMember, parseLikeMsg, parseLike, parseSocialMsg, parseSocial,
          parseEmojiChatMsg, parseEmojiChat, parseRoomUserSeqMsg, parseRoomUserSeq,
          parseRoomStatsMsg, parseRoomStats, parseControlMsg, parseControl,
          uselessMessageTypes, coreMessageTypes, shoppingMessageTypes, hrz]
    · simp [dispatchGuard] at hguard
      simp [payloadMatches] at hpm
      cases payload
      all_goals simp at hpm
      case control =>
        cases hr : h.onRawMessage with
        | raises e2 => rw [hr] at hraw; simp [CB.doesRaise] at hraw
        | absent =>
          have hre : CB.absent.registered = false := rfl
          simp [handleMsg, dispatchMsg, hr, hre, herr, hguard, rawEcho, parseErrorLabel,
          parseChatMsg, parseChat, parseGiftMsg, parseGift, parseMemberMsg,
          parseMember, parseLikeMsg, parseLike, parseSocialMsg, parseSocial,
          parseEmojiChatMsg, parseEmojiChat, parseRoomUserSeqMsg, parseRoomUserSeq,
          parseRoomStatsMsg, parseRoomStats, parseControlMsg, parseControl,
          uselessMessageTypes, coreMessageTypes, shoppingMessageTypes, hrz]
        | ok =>
          have hre : CB.ok.registered = true := rfl
          simp [handleMsg, dispatchMsg, hr, hre, herr, hguard, rawEcho, parseErrorLabel,
          parseChatMsg, parseChat, parseGiftMsg, parseGift, parseMemberMsg,
          parseMember, parseLikeMsg, parseLike, parseSocialMsg, parseSocial,
          parseEmojiChatMsg, parseEmojiChat, parseRoomUserSeqMsg, parseRoomUserSeq,
          parseRoomStatsMsg, parseRoomStats, parseControlMsg, parseControl,
          uselessMessageTypes, coreMessageTypes, shoppingMessageTypes, hrz]
    · simp [dispatchGuard] at hguard
    · simp [dispatchGuard] at hguard
  · intro h m e hrm
    constructor
    · simp [handleMsg, hrm]
    · simp [handleMsg, hrm]
  · decide

theorem c5_exception_isolation_witness :
    (processMessages managerHandlers
      ([⟨"WebcastChatMessage", [1], .chat "A" "x"⟩] ++
       ⟨"WebcastGiftMessage", [2], .malformed "bad"⟩ ::
       [⟨"WebcastLikeMessage", [3], .like "B" 5⟩]) =
      processMessages managerHandlers [⟨"WebcastChatMessage", [1], .chat "A" "x"⟩] ++
      (handleMsg managerHandlers ⟨"WebcastGiftMessage", [2], .malformed "bad"⟩).outputs ++
      processMessages managerHandlers [⟨"WebcastLikeMessage", [3], .like "B" 5⟩]) ∧
    (handleMsg managerHandlers
      ⟨"WebcastGiftMessage", [2], .malformed "bad"⟩).outputs =
      [Output.err "[礼物解析错误] bad"] ∧
    (handleMsg { managerHandlers with onMember := CB.raises "boom" }
      ⟨"WebcastMemberMessage", [3], .member "A" 1⟩).outputs =
      [Output.err "[观众进入解析错误] boom"] ∧
    (handleMsg { managerHandlers with onRawMessage := CB.raises "dead" }
      ⟨"WebcastChatMessage", [1], .chat "A" "x"⟩).outputs =
      [Output.err "[消息解析异常] WebcastChatMessage: dead"] ∧
    isSub "WebcastGiftMessage".toList
      (parseErrorLabel "WebcastGiftMessage").toList = false := by
  refine ⟨?_, ?_, ?_, ?_, ?_⟩
  · exact c5_exception_isolation.1 managerHandlers
      [⟨"WebcastChatMessage", [1], .chat "A" "x"⟩]
      [⟨"WebcastLikeMessage", [3], .like "B" 5⟩]
      ⟨"WebcastGiftMessage", [2], .malformed "bad"⟩
  · rw [c5_exception_isolation.2.1 managerHandlers
      ⟨"WebcastGiftMessage", [2], .malformed "bad"⟩ "bad" rfl (by decide) rfl
      (by decide)
      (by
        intro cb hcb
        simp only [dispatchGuard, managerHandlers] at hcb
        rw [show cb = CB.ok from by simpa using hcb.symm]
        rfl)]
    decide
  · rw [c5_exception_isolation.2.2.1 { managerHandlers with onMember := CB.raises "boom" }
      ⟨"WebcastMemberMessage", [3], .member "A" 1⟩ "boom" rfl (by decide)
      (by decide) (by decide) (by decide)]
    decide
  · exact (c5_exception_isolation.2.2.2.1
      { managerHandlers with onRawMessage := CB.raises "dead" }
      ⟨"WebcastChatMessage", [1], .chat "A" "x"⟩ "dead" rfl).1
  · exact c5_exception_isolation.2.2.2.2 "WebcastGiftMessage" (by decide)

/-! ## C8: unknown-method forwarding and readable-text extraction -/

theorem readableCp_dottedChar (b : Nat) :
    readableCp (if 32 ≤ b && b ≤ 126 then Char.ofNat b else '.').toNat = true := by
  by_cases h : 32 ≤ b && b ≤ 126
  · rw [if_pos h]
    simp only [Bool.and_eq_true, decide_eq_true_eq] at h
    have hv : b.isValidChar := Or.inl (by omega)
    have ht : (Char.ofNat b).toNat = b := by
      simp [Char.ofNat, hv]; rfl
    rw [ht]
    simp [readableCp, pyPrintable]
    omega
  · rw [if_neg h]
    decide

/-- Every character of the dotted rendering satisfies the run filter —
including the `'.'` that replaces a non-printable byte — so the run loop of
method 2 never flushes: it accumulates the whole text into one run. -/
theorem runsGo_all_readable (cs : List Char) :
    ∀ cur : List Char, (∀ c ∈ cs, readableCp c.toNat = true) →
      runsGo cs cur =
        if 3 < cur.length + cs.length then [String.mk (cur.reverse ++ cs)] else [] := by
  induction cs with
  | nil =>
    intro cur _
    simp [runsGo]
  | cons c cs ih =>
    intro cur h
    have hc : readableCp c.toNat = true := h c (by simp)
    rw [runsGo, if_pos hc, ih (c :: cur) (fun x hx => h x (by simp [hx]))]
    have hlen : (c :: cur).length + cs.length = cur.length + (c :: cs).length := by
      simp; omega
    rw [hlen]
    by_cases hgt : 3 < cur.length + (c :: cs).length
    · rw [if_pos hgt, if_pos hgt]
      simp
    · rw [if_neg hgt, if_neg hgt]

theorem printableRuns_dotted (raw : List Nat) :
    printableRuns (dottedText raw) =
      if 3 < raw.length then [String.mk (dottedText raw)] else [] := by
  have h := runsGo_all_readable (dottedText raw) []
    (by
      intro c hc
      simp only [dottedText, List.mem_map] at hc
      rcases hc with ⟨b, _, hb⟩
      rw [← hb]
      exact readableCp_dottedChar b)
  simp only [printableRuns, h]
  simp [dottedText]

theorem joinSep_length_le (sep : String) (k : Nat) :
    ∀ l : List String, (∀ x ∈ l, x.length ≤ k) →
      (joinSep sep l).length ≤ l.length * (k + sep.length) := by
  intro l
  induction l with
  | nil => intro _; simp [joinSep]
  | cons x rest ih =>
    intro h
    cases rest with
    | nil =>
      have hx := h x (by simp)
      simp only [joinSep, List.length_cons, List.length_nil]
      omega
    | cons y rest2 =>
      have hx := h x (by simp)
      have hJ := ih (fun z hz => h z (by simp [List.mem_cons] at hz ⊢; tauto))
      rw [joinSep]
      simp only [String.length_append, List.length_cons] at hJ ⊢
      have hmul : (rest2.length + 1 + 1) * (k + sep.length)
          = (rest2.length + 1) * (k + sep.length) + (k + sep.length) := by ring
      rw [hmul]
      omega

/-- C8: the claim says the dispatcher forwards unknown-method content
exactly when extraction finds printable content of length > 5, the fallback
joining only printable runs of length > 3.  Refuted: a 4-byte payload of NUL
bytes has no printable content at all, yet its dotted rendering `....` (the
`'.'` standing for each unprintable byte is itself printable, so the run
scan never splits) is forwarded — content of length 4 ≤ 5. -/
theorem c8_counterexample :
    extractReadableContent [0, 0, 0, 0] = some "...." ∧
    ("...." : String).length = 4 ∧
    (utf8DecodeIgnore [0, 0, 0, 0]).filter readableCp = [] ∧
    (handleMsg managerHandlers
      ⟨"WebcastFooMessage", [0, 0, 0, 0], .unparsed⟩).outputs =
      [.err "[🔍 未知消息] WebcastFooMessage - 内容: ...."] := by
  decide

/-- C8 (amended): an unknown-method message is forwarded to the diagnostic
channel, annotated with the method name, exactly when extraction returns a
non-empty result.  Extraction keeps the printable characters of the UTF-8
decode when more than 5 exist; otherwise, whenever the payload is longer
than 3 bytes, it returns the complete dotted byte rendering (the
run-splitting never splits, because `'.'` is itself printable); for payloads
of at most 3 bytes it falls through to the Chinese-keyword scan and then to
nothing.  Every result is at most 200 characters. -/
theorem c8_unknown_message_extraction :
    (∀ (h : Handlers) (m : Msg),
      h.onRawMessage.doesRaise = false →
      m.method ∉ uselessMessageTypes →
      m.method ∉ coreMessageTypes →
      m.method ∉ shoppingMessageTypes →
      (shoppingKeywords.any fun k => isSub k.toList m.method.toList) = false →
      (handleMsg h m).outputs =
        (if h.onRawMessage.registered then [Output.rawMsg m.method m.raw] else []) ++
        (if h.onError then
          (match extractReadableContent m.raw with
           | some content =>
             if content ≠ "" then
               [Output.err ("[🔍 未知消息] " ++ m.method ++ " - 内容: " ++ content)]
             else []
           | none => [])
         else [])) ∧
    (∀ raw : List Nat,
      5 < ((utf8DecodeIgnore raw).filter readableCp).length →
      extractReadableContent raw =
        some (takeStr 200 (cpString ((utf8DecodeIgnore raw).filter readableCp)))) ∧
    (∀ raw : List Nat,
      ((utf8DecodeIgnore raw).filter readableCp).length ≤ 5 → 3 < raw.length →
      extractReadableContent raw = some (takeStr 200 (String.mk (dottedText raw)))) ∧
    (∀ raw : List Nat,
      ((utf8DecodeIgnore raw).filter readableCp).length ≤ 5 → ¬3 < raw.length →
      cnKeywords.filter
        (fun kw => isSub kw.toList (cpString (utf8DecodeIgnore raw)).toList) = [] →
      extractReadableContent raw = none) ∧
    (∀ (raw : List Nat) (s : String),
      extractReadableContent raw = some s → s.length ≤ 200) := by
  refine ⟨?_, ?_, ?_, ?_, ?_⟩
  · intro h m hraw hu hcore hshop hkw
    simp only [uselessMessageTypes, coreMessageTypes, shoppingMessageTypes,
      List.mem_cons, List.not_mem_nil, or_false, not_or] at hu hcore hshop
    obtain ⟨u1, u2, u3, u4, u5, u6, u7, u8, u9, u10⟩ := hu
    obtain ⟨c1, c2, c3, c4, c5, c6⟩ := hcore
    obtain ⟨s1, s2, s3⟩ := hshop
    have hkw2 : ∀ x ∈ shoppingKeywords, isSub x.toList m.method.toList = false := by
      simpa using hkw
    have hkw3 : ¬∃ x ∈ shoppingKeywords, isSub x.data m.method.data = true := by
      rintro ⟨x, hx, hsub⟩
      have h0 := hkw2 x hx
      simp only [String.toList] at h0
      rw [h0] at hsub
      exact Bool.false_ne_true hsub
    cases hr : h.onRawMessage with
    | raises e => rw [hr] at hraw; simp [CB.doesRaise] at hraw
    | absent =>
      simp [handleMsg, dispatchMsg, hr, hkw3, CB.registered,
        uselessMessageTypes, coreMessageTypes, shoppingMessageTypes,
        u1, u2, u3, u4, u5, u6, u7, u8, u9, u10, c1, c2, c3, c4, c5, c6,
        s1, s2, s3]
    | ok =>
      simp [handleMsg, dispatchMsg, hr, hkw3, CB.registered,
        uselessMessageTypes, coreMessageTypes, shoppingMessageTypes,
        u1, u2, u3, u4, u5, u6, u7, u8, u9, u10, c1, c2, c3, c4, c5, c6,
        s1, s2, s3]
  · intro raw hc
    simp only [extractReadableContent]
    rw [if_pos hc]
  · intro raw hc hl
    simp only [extractReadableContent]
    rw [if_neg (by omega), printableRuns_dotted, if_pos hl]
    simp [joinSep]
  · intro raw hc hl hk
    simp only [extractReadableContent]
    rw [if_neg (by omega), printableRuns_dotted, if_neg hl]
    simp only [hk]
    simp
  · intro raw s h
    simp only [extractReadableContent] at h
    split at h
    · rw [Option.some.injEq] at h
      subst h
      simp only [takeStr, String.length]
      rw [List.length_take]
      exact min_le_left _ _
    · split at h
      · rw [Option.some.injEq] at h
        subst h
        simp only [takeStr, String.length]
        rw [List.length_take]
        exact min_le_left _ _
      · split at h
        · rw [Option.some.injEq] at h
          subst h
          have hbound : ∀ x ∈ cnKeywords, x.length ≤ 2 := by decide
          set found := cnKeywords.filter
            (fun kw => isSub kw.toList (cpString (utf8DecodeIgnore raw)).toList) with hf
          have hmem : ∀ x ∈ found, x.length ≤ 2 := by
            intro x hx
            exact hbound x (List.mem_of_mem_filter hx)
          have hlen : found.length ≤ 12 := by
            have := List.length_filter_le
              (fun kw => isSub kw.toList (cpString (utf8DecodeIgnore raw)).toList)
              cnKeywords
            simpa [hf] using this
          have hJ := joinSep_length_le ", " 2 found hmem
          have hsep : (", " : String).length = 2 := by decide
          rw [hsep] at hJ
          have hmul : found.length * (2 + 2) ≤ 12 * (2 + 2) :=
            Nat.mul_le_mul_right _ hlen
          simp only [String.length_append]
          have hpre : ("包含关键词: " : String).length = 7 := by decide
          omega
        · exact absurd h (by simp)

theorem c8_unknown_message_extraction_witness :
    (handleMsg managerHandlers
      ⟨"WebcastBarMessage", [72, 101, 108, 108, 111, 33, 33], .unparsed⟩).outputs =
      [Output.err "[🔍 未知消息] WebcastBarMessage - 内容: Hello!!"] ∧
    extractReadableContent [0, 1, 2, 3] = some "...." := by
  constructor
  · rw [c8_unknown_message_extraction.1 managerHandlers
      ⟨"WebcastBarMessage", [72, 101, 108, 108, 111, 33, 33], .unparsed⟩
      (by decide) (by decide) (by decide) (by decide) (by decide)]
    decide
  · have h := c8_unknown_message_extraction.2.2.1 [0, 1, 2, 3] (by decide) (by decide)
    rw [h]
    decide

/-! ## C4: deduplication (`_isDuplicateMessage` / `_extractMessageSignature`)

`_isDuplicateMessage` does `import time, hashlib` in its own body, so
`hashlib` is a *local* name there.  `_extractMessageSignature` also calls
`hashlib.md5(...)`, but no module-level (or local) import is in scope in
that method: every branch that reaches its `return hashlib.md5(...)` raises
`NameError`, the branch's blanket `except: pass` swallows it, and control
falls through to the final `return None`.  Consequently the
content-signature strategy the method's comments describe is dead code, and
`_isDuplicateMessage` always takes its fallback: an md5 of
`f"{method}_{payload}"`, i.e. the verbatim payload bytes. -/

/-- The signature components §4.3 prescribes for live-shopping dedup:
`(method, promotion_id, event_time truncated to whole seconds)`, with the
source's `time_second = create_time // 1000 if create_time > 0 else 0`. -/
def liveShoppingSigComponents (method : String) (p : Payload) :
    Option (String × Nat × Nat) :=
  match parseLiveShopping p with
  | .ok (_, pid, ct) => some (method, pid, if 0 < ct then ct / 1000 else 0)
  | .error _ => none

/-- `_extractMessageSignature` as executed: each branch either never
computes a signature or dies on the unbound `hashlib` name (caught by its
`except: pass`), so every input yields `None`. -/
def extractMessageSignature (method : String) (p : Payload) (raw : List Nat) :
    Option String :=
  if method = "WebcastLiveEcomGeneralMessage" then
    -- when 'ProductRefreshMessage' occurs in the ignore-decoded payload the
    -- branch evaluates `hashlib.md5(...)` → NameError → except: pass → None;
    -- otherwise no signature is assigned and the final `return None` runs
    none
  else if method = "WebcastLiveShoppingMessage" then
    -- parses the message, computes promotion_id and create_time // 1000,
    -- then `return hashlib.md5(signature.encode())` → NameError → None
    none
  else if method = "WebcastProductChangeMessage" then
    -- same NameError at its `return hashlib.md5(...)` → None
    none
  else none

/-- The fallback key `hashlib.md5(f"{method}_{payload}".encode())`; md5 is
modelled as an injective encoding, so the digest is represented by its
pre-image text. -/
def fallbackKey (method : String) (raw : List Nat) : String :=
  "md5:" ++ method ++ "_" ++ toString raw

def cacheTimeout : ℚ := 2

/-- `_isDuplicateMessage`: purge entries older than the timeout, then — for
the three commerce methods — try the content signature (always `None`, see
above) and fall back to the verbatim-payload key; a cache hit returns
`True` without refreshing the stored timestamp, a miss stores `now` and
returns `False`. -/
def isDuplicateMessage (cache : List (String × ℚ)) (method : String)
    (p : Payload) (raw : List Nat) (now : ℚ) : Bool × List (String × ℚ) :=
  let purged := cache.filter (fun kv => ¬(now - kv.2 > cacheTimeout))
  if method ∈ ["WebcastLiveEcomGeneralMessage", "WebcastLiveShoppingMessage",
      "WebcastProductChangeMessage"] then
    match extractMessageSignature method p raw with
    | some sig =>
      if (purged.find? (fun kv => kv.1 = sig)).isSome then (true, purged)
      else (false, (sig, now) :: purged)
    | none =>
      let key := fallbackKey method raw
      if (purged.find? (fun kv => kv.1 = key)).isSome then (true, purged)
      else (false, (key, now) :: purged)
  else
    let key := fallbackKey method raw
    if (purged.find? (fun kv => kv.1 = key)).isSome then (true, purged)
    else (false, (key, now) :: purged)

/-- C4: the claim says two calls with equal live-shopping signature
components `(method, promotion_id, event_time truncated to seconds)` within
2 seconds suppress the second.  The code cannot do this: the signature
extractor always returns `None` (unbound `hashlib`), so dedup keys on the
verbatim payload bytes.  At the failing input — two messages with equal
components but different payload bytes, one second apart — the second call
is not suppressed; a byte-identical repeat, by contrast, is. -/
theorem c4_dedup_failing_input :
    liveShoppingSigComponents "WebcastLiveShoppingMessage"
        (.liveShopping 2 99 1700000000100) =
      liveShoppingSigComponents "WebcastLiveShoppingMessage"
        (.liveShopping 2 99 1700000000900) ∧
    extractMessageSignature "WebcastLiveShoppingMessage"
      (.liveShopping 2 99 1700000000100) [8, 100] = none ∧
    (isDuplicateMessage [] "WebcastLiveShoppingMessage"
      (.liveShopping 2 99 1700000000100) [8, 100] 1000).1 = false ∧
    (isDuplicateMessage
      (isDuplicateMessage [] "WebcastLiveShoppingMessage"
        (.liveShopping 2 99 1700000000100) [8, 100] 1000).2
      "WebcastLiveShoppingMessage"
      (.liveShopping 2 99 1700000000900) [8, 900] 1001).1 = false ∧
    (isDuplicateMessage
      (isDuplicateMessage [] "WebcastLiveShoppingMessage"
        (.liveShopping 2 99 1700000000100) [8, 100] 1000).2
      "WebcastLiveShoppingMessage"
      (.liveShopping 2 99 1700000000100) [8, 100] 1001).1 = true := by
  refine ⟨by decide, by decide, ?_, ?_, ?_⟩
  · simp [isDuplicateMessage, extractMessageSignature, fallbackKey, cacheTimeout]
  · simp [isDuplicateMessage, extractMessageSignature, fallbackKey, cacheTimeout]
    rw [if_neg ?_]
    rintro ⟨-, hs⟩
    exact absurd hs (by decide)
  · simp [isDuplicateMessage, extractMessageSignature, fallbackKey, cacheTimeout]
    rw [if_pos ?_]
    norm_num
